import Mathlib

/-!
# Puffer: media server delivery engine and log reporter tokenizer

A shallow embedding of `src/media-server/ws_media_server.cc` and of the
format-string tokenizer of `src/monitoring/log_reporter.cc`.

Conventions of the embedding.

* A C++ `string` that carries wire bytes or a media blob is a `List UInt8`;
  a `string` that carries text read from the log configuration is a
  `List Char`; names (channel names, codec strings) are `String`.
* `uint64_t`, `size_t`, `uint16_t` and `int` arithmetic is arithmetic on
  `Nat`/`Int` reduced explicitly (`% 2 ^ 64`, `% 2 ^ 16`, `int_of_size`).
* A C++ exception or an out-of-bounds access is a `Fault`.  A function that
  mutates its arguments through references returns an `Outcome`: the state
  as the function left it, and the fault that escaped it, if any.
* Classes whose definition is in headers outside the two source files
  (`Channel`, `WebSocketClient`, `WebSocketServer`, the message codec) are
  records of the members the source uses.
-/

namespace Puffer

/-! ## Faults -/

/-- What can end a call early: a C++ exception, undefined behaviour, or an
abort. -/
inductive Fault where
  /-- Thrown by `std::optional::value()` on an empty optional. -/
  | bad_optional_access
  /-- Thrown by `std::map::at` on a missing key. -/
  | out_of_range
  /-- The exception `BadClientMessageException`. -/
  | bad_client_message
  /-- A store accessor of `Channel` failed (no such segment, no such
  initialization blob, nothing ready yet). -/
  | store_failure
  /-- An access outside the bounds of a buffer or of a vector. -/
  | undefined_behaviour
  /-- A failed `assert`: the process aborts. -/
  | assertion_failure
  deriving DecidableEq, Repr

/-! ## Machine integers -/

/-- The modulus of `uint64_t` and of `size_t`. -/
def U64 : Nat := 2 ^ 64

/-- The modulus of `uint16_t`. -/
def U16 : Nat := 2 ^ 16

/-- Conversion of a `size_t` value to `int` (two's complement, 32 bits). -/
def int_of_size (n : Nat) : Int :=
  if n % 2 ^ 32 < 2 ^ 31 then ((n % 2 ^ 32 : Nat) : Int)
  else ((n % 2 ^ 32 : Nat) : Int) - 2 ^ 32

/-! ## Byte buffers -/

/-- Raw bytes: the contents of a `std::string` used as a buffer, or of a
media blob. -/
abbrev Bytes := List UInt8

/-- The call `memcpy(&dst[off], src, n)` where `src` points at the `n` bytes
of `src`: bytes `off .. off + n` of `dst` are overwritten.  Writing outside
`dst` is undefined behaviour. -/
def memcpy (dst : Bytes) (off : Nat) (src : Bytes) : Except Fault Bytes :=
  if off + src.length ≤ dst.length then
    .ok (dst.take off ++ src ++ dst.drop (off + src.length))
  else
    .error Fault.undefined_behaviour

/-- The call `memcpy(&dst[off], src, n)` with an `int` index `off`: a negative index
converts to a `size_t` beyond any buffer. -/
def memcpy_at (dst : Bytes) (off : Int) (src : Bytes) : Except Fault Bytes :=
  if off < 0 then .error Fault.undefined_behaviour else memcpy dst off.toNat src

/-! ## Data model -/

/-- Modelled from the spec: the class `VideoFormat` (declared in a header
outside the source files): an opaque quality identifier with a canonical
string form, compared by identifier. -/
structure VideoFormat where
  id : String
  deriving DecidableEq, Repr

/-- Modelled from the spec: the class `AudioFormat`, as `VideoFormat`. -/
structure AudioFormat where
  id : String
  deriving DecidableEq, Repr

/-- The member `VideoFormat::to_string`. -/
def VideoFormat.to_string (q : VideoFormat) : String := q.id

/-- The member `AudioFormat::to_string`. -/
def AudioFormat.to_string (q : AudioFormat) : String := q.id

/-- Modelled from the spec: the class `Channel` (declared in `channel.hh`,
outside the source files), as the record of the members the media server
calls.  The identity of a channel (name, codecs, timescale, strides, quality
lists) is fixed; the store accessors reflect what is on disk at the moment
of the call and may fail. -/
structure Channel where
  name : String
  vcodec : String
  acodec : String
  timescale : Nat
  vduration : Nat
  aduration : Nat
  vformats : List VideoFormat
  aformats : List AudioFormat
  vready : Nat → Bool
  aready : Nat → Bool
  vdata : VideoFormat → Nat → Except Fault Bytes
  adata : AudioFormat → Nat → Except Fault Bytes
  vinit : VideoFormat → Except Fault Bytes
  ainit : AudioFormat → Except Fault Bytes
  init_vts : Except Fault Nat
  find_ats : Nat → Nat

/-- The global `channels`: a `map<string, Channel>`. -/
abbrev ChannelMap := List (String × Channel)

/-- The call `channels.find(name)`, `none` standing for `channels.end()`. -/
def ChannelMap.find (channels : ChannelMap) (name : String) : Option Channel :=
  List.lookup name channels

/-- The call `channels.at(name)`. -/
def ChannelMap.at (channels : ChannelMap) (name : String) : Except Fault Channel :=
  match channels.find name with
  | some ch => .ok ch
  | none => .error Fault.out_of_range

/-- Modelled from the spec: the class `WebSocketClient` (declared in
`ws_client.hh`, outside the source files): the per-connection session.  The
playback buffer levels are doubles in the source; only their being stored
matters here and they are kept as integers. -/
structure WebSocketClient where
  connection_id : Nat
  channel : Option String
  next_vts : Option Nat
  next_ats : Option Nat
  curr_vq : Option VideoFormat
  curr_aq : Option AudioFormat
  video_playback_buf : Int
  audio_playback_buf : Int
  deriving DecidableEq, Repr

/-- Modelled from the spec: the constructor `WebSocketClient(connection_id)`:
a session in state New, with no binding, cursors or qualities. -/
def WebSocketClient.new (connection_id : Nat) : WebSocketClient :=
  { connection_id := connection_id, channel := none, next_vts := none,
    next_ats := none, curr_vq := none, curr_aq := none,
    video_playback_buf := 0, audio_playback_buf := 0 }

/-- Modelled from the spec: the member `WebSocketClient::init`: set the
channel and both cursors, reset both current qualities. -/
def WebSocketClient.init (c : WebSocketClient) (channel : String) (vts ats : Nat) :
    WebSocketClient :=
  { c with channel := some channel, next_vts := some vts, next_ats := some ats,
           curr_vq := none, curr_aq := none }

/-- The call `optional::value()`. -/
def value {α : Type} : Option α → Except Fault α
  | some a => .ok a
  | none => .error Fault.bad_optional_access

/-- The opcode of a frame; the media server only sends `Binary`. -/
inductive OpCode where
  | Binary
  deriving DecidableEq, Repr

/-- The aggregate `WSFrame {fin, opcode, payload}`. -/
structure WSFrame where
  fin : Bool
  opcode : OpCode
  payload : Bytes
  deriving DecidableEq, Repr

/-- Modelled from the spec: the class `WebSocketServer` (declared in
`ws_server.hh`, outside the source files), as its frame-queue sink: the frames
queued so far, oldest first, each with the connection it is addressed to. -/
structure WebSocketServer where
  queue : List (Nat × WSFrame)
  deriving DecidableEq, Repr

/-- The member `WebSocketServer::queue_frame`. -/
def WebSocketServer.queue_frame (s : WebSocketServer) (connection_id : Nat)
    (frame : WSFrame) : WebSocketServer :=
  { queue := s.queue ++ [(connection_id, frame)] }

/-- The tag of an inbound message, the first component of what
`unpack_client_msg` returns. -/
inductive ClientMessage where
  | Init
  | Info
  | Unknown
  deriving DecidableEq, Repr

/-- The struct `ClientInitMessage`. -/
structure ClientInitMessage where
  channel : String
  deriving DecidableEq, Repr

/-- The struct `ClientInfoMessage`. -/
structure ClientInfoMessage where
  audio_buffer_len : Int
  video_buffer_len : Int
  deriving DecidableEq, Repr

/-- The functions of `message.hh` (outside the source files), taken as
parameters: the wire encoding is implementation-defined.  The encoders get
the arguments the source passes, in the source's order. -/
structure MessageCodec where
  make_video_msg : String → Nat → Nat → Nat → Nat → Bytes
  make_audio_msg : String → Nat → Nat → Nat → Nat → Bytes
  make_server_init_msg : String → String → String → Nat → Nat → Bytes
  make_server_hello_msg : List String → Bytes
  unpack_client_msg : Bytes → Except Fault (ClientMessage × Bytes)
  parse_client_init_msg : Bytes → Except Fault ClientInitMessage
  parse_client_info_msg : Bytes → Except Fault ClientInfoMessage

/-- The state a delivery function works on through its two reference
arguments, as the function left it, and the fault that escaped, if any. -/
structure Outcome where
  server : WebSocketServer
  client : WebSocketClient
  fault : Option Fault
  deriving DecidableEq, Repr

/-- The global `clients`: a `map<uint64_t, WebSocketClient>`. -/
abbrev ClientMap := List (Nat × WebSocketClient)

/-- The call `clients.at(connection_id)`. -/
def ClientMap.at (clients : ClientMap) (connection_id : Nat) :
    Except Fault WebSocketClient :=
  match List.lookup connection_id clients with
  | some c => .ok c
  | none => .error Fault.out_of_range

/-- The call `clients.erase(connection_id)`. -/
def ClientMap.erase (clients : ClientMap) (connection_id : Nat) : ClientMap :=
  clients.filter (fun kv => kv.1 ≠ connection_id)

/-- The server and the session table as a callback left them, and the fault
that escaped the callback, if any. -/
structure TableOutcome where
  server : WebSocketServer
  clients : ClientMap
  fault : Option Fault
  deriving DecidableEq, Repr

/-! ## Delivery policy -/

/-- The function `select_video_quality`.  The argument of `value_or`,
`channel.vformats()[0]`, is evaluated whether or not `curr_vq` is set. -/
def select_video_quality (channels : ChannelMap) (client : WebSocketClient) :
    Except Fault VideoFormat := do
  let channel ← channels.at (← value client.channel)
  match channel.vformats with
  | [] => .error Fault.undefined_behaviour
  | first :: _ => .ok (client.curr_vq.getD first)

/-- The function `select_audio_quality`. -/
def select_audio_quality (channels : ChannelMap) (client : WebSocketClient) :
    Except Fault AudioFormat := do
  let channel ← channels.at (← value client.channel)
  match channel.aformats with
  | [] => .error Fault.undefined_behaviour
  | first :: _ => .ok (client.curr_aq.getD first)

/-- The computation of `payload_len` in the two delivery functions:
`size_t payload_len = media_size; if (init_segment_required) payload_len +=
init_size;`. -/
def payload_len_of (init_segment_required : Bool) (init_data media_data : Bytes) : Nat :=
  if init_segment_required then (media_data.length + init_data.length) % U64
  else media_data.length

/-- The lines the two delivery functions share, from "Compute size of frame
payload excluding header" to the last `memcpy`: `make_msg` is the metadata
encoder applied to all its arguments but `payload_len`; the result is
`frame_payload`. -/
def assemble_frame (make_msg : Nat → Bytes) (init_segment_required : Bool)
    (init_data media_data : Bytes) : Except Fault Bytes := do
  let init_size := init_data.length
  let payload_len := payload_len_of init_segment_required init_data media_data
  let metadata := make_msg payload_len
  let frame_payload : Bytes :=
    List.replicate ((metadata.length + payload_len) % U64) 0
  let frame_payload ← memcpy frame_payload 0 metadata
  if init_segment_required then
    let frame_payload ← memcpy frame_payload metadata.length init_data
    let segment_begin := int_of_size ((metadata.length + init_size) % U64)
    memcpy_at frame_payload segment_begin media_data
  else
    let segment_begin := int_of_size metadata.length
    memcpy_at frame_payload segment_begin media_data

/-- The function `serve_video_to_client`.  Every fallible call precedes the
first mutation, so an exception leaves `server` and `client` as they
were. -/
def serve_video_to_client (codec : MessageCodec) (channels : ChannelMap)
    (server : WebSocketServer) (client : WebSocketClient) :
    Except Fault (WebSocketServer × WebSocketClient) := do
  let channel ← channels.at (← value client.channel)
  let next_vts ← value client.next_vts
  if !channel.vready next_vts then
    return (server, client)
  let next_vq ← select_video_quality channels client
  let video_data ← channel.vdata next_vq next_vts
  let init_data ← channel.vinit next_vq
  let init_segment_required : Bool :=
    match client.curr_vq with
    | none => true
    | some curr_vq => decide (next_vq ≠ curr_vq)
  let frame_payload ← assemble_frame
    (codec.make_video_msg next_vq.to_string next_vts channel.vduration 0)
    init_segment_required init_data video_data
  let frame : WSFrame := ⟨true, OpCode.Binary, frame_payload⟩
  let server := server.queue_frame client.connection_id frame
  let client := { client with next_vts := some ((next_vts + channel.vduration) % U64) }
  let client := { client with curr_vq := some next_vq }
  return (server, client)

/-- The function `serve_audio_to_client`. -/
def serve_audio_to_client (codec : MessageCodec) (channels : ChannelMap)
    (server : WebSocketServer) (client : WebSocketClient) :
    Except Fault (WebSocketServer × WebSocketClient) := do
  let channel ← channels.at (← value client.channel)
  let next_ats ← value client.next_ats
  if !channel.aready next_ats then
    return (server, client)
  let next_aq ← select_audio_quality channels client
  let audio_data ← channel.adata next_aq next_ats
  let init_data ← channel.ainit next_aq
  let init_segment_required : Bool :=
    match client.curr_aq with
    | none => true
    | some curr_aq => decide (next_aq ≠ curr_aq)
  let frame_payload ← assemble_frame
    (codec.make_audio_msg next_aq.to_string next_ats channel.aduration 0)
    init_segment_required init_data audio_data
  let frame : WSFrame := ⟨true, OpCode.Binary, frame_payload⟩
  let server := server.queue_frame client.connection_id frame
  let client := { client with next_ats := some ((next_ats + channel.aduration) % U64) }
  let client := { client with curr_aq := some next_aq }
  return (server, client)

/-- The function `serve_client`: the three `assert`s, then video, then
audio.  An exception out of the video step skips the audio step; an
exception out of the audio step leaves what the video step did. -/
def serve_client (codec : MessageCodec) (channels : ChannelMap)
    (server : WebSocketServer) (client : WebSocketClient) : Outcome :=
  if !client.channel.isSome then ⟨server, client, some Fault.assertion_failure⟩
  else if !client.next_vts.isSome then ⟨server, client, some Fault.assertion_failure⟩
  else if !client.next_ats.isSome then ⟨server, client, some Fault.assertion_failure⟩
  else
    match serve_video_to_client codec channels server client with
    | .error e => ⟨server, client, some e⟩
    | .ok (server1, client1) =>
      match serve_audio_to_client codec channels server1 client1 with
      | .error e => ⟨server1, client1, some e⟩
      | .ok (server2, client2) => ⟨server2, client2, none⟩

/-- The loop of the timer callback in `start_global_timer` over the entries
of `clients`, each session served through a reference into the table.  An
exception out of `serve_client` ends the loop. -/
def serve_all (codec : MessageCodec) (channels : ChannelMap)
    (server : WebSocketServer) : ClientMap → TableOutcome
  | [] => ⟨server, [], none⟩
  | (id, client) :: rest =>
    if client.channel.isSome then
      let o := serve_client codec channels server client
      match o.fault with
      | some e => ⟨o.server, (id, o.client) :: rest, some e⟩
      | none =>
        let r := serve_all codec channels o.server rest
        ⟨r.server, (id, o.client) :: r.clients, r.fault⟩
    else
      let r := serve_all codec channels server rest
      ⟨r.server, (id, client) :: r.clients, r.fault⟩

/-- The timer callback registered by `start_global_timer`, given what
`global_timer.expirations()` returns. -/
def timer_callback (codec : MessageCodec) (channels : ChannelMap)
    (expirations : Nat) (server : WebSocketServer) (clients : ClientMap) :
    TableOutcome :=
  if expirations > 0 then serve_all codec channels server clients
  else ⟨server, clients, none⟩

/-! ## Control handler -/

/-- The function `handle_client_init`.  The two locals `init_vts` and
`init_ats` are declared `uint16_t`. -/
def handle_client_init (codec : MessageCodec) (channels : ChannelMap)
    (server : WebSocketServer) (client : WebSocketClient)
    (message : ClientInitMessage) :
    Except Fault (WebSocketServer × WebSocketClient) := do
  if (channels.find message.channel).isNone then
    throw Fault.bad_client_message
  let channel ← channels.at message.channel
  let init_vts := (← channel.init_vts) % U16
  let init_ats := (channel.find_ats init_vts) % U16
  let client := client.init channel.name init_vts init_ats
  let reply := codec.make_server_init_msg channel.name channel.vcodec
    channel.acodec channel.timescale (← value client.next_vts)
  let frame : WSFrame := ⟨true, OpCode.Binary, reply⟩
  let server := server.queue_frame client.connection_id frame
  return (server, client)

/-- The function `handle_client_info`. -/
def handle_client_info (client : WebSocketClient) (message : ClientInfoMessage) :
    WebSocketClient :=
  let client := { client with audio_playback_buf := message.audio_buffer_len }
  { client with video_playback_buf := message.video_buffer_len }

/-- The function `handle_client_open`. -/
def handle_client_open (codec : MessageCodec) (channel_names : List String)
    (server : WebSocketServer) (connection_id : Nat) : WebSocketServer :=
  let server_hello := codec.make_server_hello_msg channel_names
  let frame : WSFrame := ⟨true, OpCode.Binary, server_hello⟩
  server.queue_frame connection_id frame

/-- The `try` block of the message callback, run on the local `client`:
the server as the block left it. -/
def message_try (codec : MessageCodec) (channels : ChannelMap)
    (server : WebSocketServer) (client : WebSocketClient) (payload : Bytes) :
    Except Fault WebSocketServer := do
  let data ← codec.unpack_client_msg payload
  match data.1 with
  | ClientMessage.Init =>
    let client_init ← codec.parse_client_init_msg data.2
    let (server, _) ← handle_client_init codec channels server client client_init
    return server
  | ClientMessage.Info =>
    let client_info ← codec.parse_client_info_msg data.2
    let _ := handle_client_info client client_info
    return server
  | ClientMessage.Unknown =>
    return server

/-- The message callback set in `main`.  The local `client` is declared
`auto client = clients.at(connection_id)`: a copy of the table's entry, so
what the handlers do to it ends with the callback; the server is captured
by reference.  Only `BadClientMessageException` is caught. -/
def message_callback (codec : MessageCodec) (channels : ChannelMap)
    (server : WebSocketServer) (clients : ClientMap) (connection_id : Nat)
    (payload : Bytes) : TableOutcome :=
  match clients.at connection_id with
  | .error e => ⟨server, clients, some e⟩
  | .ok client =>
    match message_try codec channels server client payload with
    | .ok server1 => ⟨server1, clients, none⟩
    | .error Fault.bad_client_message =>
      ⟨server, clients.erase connection_id, none⟩
    | .error e => ⟨server, clients, some e⟩

/-! ## The log reporter: the format-string tokenizer of `main` -/

/-- The exceptions of the standard library that the tokenizer can meet. -/
inductive StdException where
  /-- Thrown by `std::stoi` when no conversion can be performed. -/
  | invalid_argument
  /-- Thrown by `std::stoi` when the value is outside the range of `int`,
  and by `std::string::substr` when the position is past the end. -/
  | out_of_range
  deriving DecidableEq, Repr

/-- The first index of `c` in `s`, if any. -/
def index_of (c : Char) : List Char → Option Nat
  | [] => none
  | x :: xs => if x = c then some 0 else (index_of c xs).map (· + 1)

/-- The call `s.find(c, pos)` for a one-character pattern: the first index at
or after `pos` where `c` stands; `none` is `string::npos`. -/
def find (s : List Char) (c : Char) (pos : Nat) : Option Nat :=
  (index_of c (s.drop pos)).map (· + pos)

/-- The call `s.substr(pos, n)`. -/
def substr (s : List Char) (pos n : Nat) : Except StdException (List Char) :=
  if pos > s.length then .error StdException.out_of_range
  else .ok ((s.drop pos).take n)

/-- The test `isspace` of the C locale. -/
def isspace (c : Char) : Bool :=
  c = ' ' || c = '\t' || c = '\n' || c = '\x0b' || c = '\x0c' || c = '\r'

/-- The call `std::stoi(s)`: leading white space, an optional sign, then the
longest run of decimal digits; what follows the digits is ignored. -/
def stoi (s : List Char) : Except StdException Int :=
  let s := s.dropWhile isspace
  let signed : Bool × List Char :=
    match s with
    | '-' :: t => (true, t)
    | '+' :: t => (false, t)
    | _ => (false, s)
  let digits := signed.2.takeWhile Char.isDigit
  if digits.isEmpty then .error StdException.invalid_argument
  else
    let magnitude : Nat := digits.foldl (fun acc c => 10 * acc + (c.toNat - '0'.toNat)) 0
    let v : Int := if signed.1 then -(magnitude : Int) else (magnitude : Int)
    if v < -(2 ^ 31) ∨ 2 ^ 31 - 1 < v then .error StdException.out_of_range
    else .ok v

/-- How the tokenizer of `main` ends. -/
inductive TokenizerResult where
  /-- The loop ended; the vector `data`. -/
  | tokens (data : List (List Char))
  /-- The program returned `EXIT_FAILURE`, after the message. -/
  | exit_failure (message : String)
  /-- An exception left the loop. -/
  | threw (e : StdException)
  /-- The model ran out of fuel. -/
  | out_of_fuel
  deriving DecidableEq, Repr

/-- The `while (pos < config_line.size())` loop of `main`, from the state
`pos`, `data`; one unit of fuel per iteration. -/
def tokenize_loop : Nat → List Char → Nat → List (List Char) → TokenizerResult
  | 0, _, _, _ => TokenizerResult.out_of_fuel
  | fuel + 1, config_line, pos, data =>
    if pos < config_line.length then
      match find config_line '{' pos with
      | none =>
        match substr config_line pos (config_line.length - pos) with
        | .error e => TokenizerResult.threw e
        | .ok literal => TokenizerResult.tokens (data ++ [literal])
      | some left_pos =>
        match (if left_pos - pos > 0 then
                 (substr config_line pos (left_pos - pos)).map (fun literal => data ++ [literal])
               else .ok data) with
        | .error e => TokenizerResult.threw e
        | .ok data =>
          let pos := left_pos + 1
          match find config_line '}' pos with
          | none =>
            TokenizerResult.exit_failure "Wrong config format: no matching \x7d for \x7b"
          | some right_pos =>
            if right_pos - left_pos = 1 then
              TokenizerResult.exit_failure "Error: empty column number between \x7b and \x7d"
            else
              match substr config_line (left_pos + 1) (right_pos - left_pos - 1) with
              | .error e => TokenizerResult.threw e
              | .ok column_no =>
                match stoi column_no with
                | .error e => TokenizerResult.threw e
                | .ok column =>
                  if column ≤ 0 then
                    TokenizerResult.exit_failure
                      "Error: invalid column number between \x7b and \x7d"
                  else
                    tokenize_loop fuel config_line (right_pos + 1)
                      (data ++ [['{'] ++ column_no ++ ['}']])
    else
      TokenizerResult.tokens data

/-- The tokenizer of `main` on the line read from the configuration file:
the loop from `pos = 0` and an empty `data`.  Every iteration but the last
moves `pos` forward, so `config_line.size() + 1` iterations are enough. -/
def tokenize (config_line : List Char) : TokenizerResult :=
  tokenize_loop (config_line.length + 1) config_line 0 []

/-- A token as the tokenizer is to store it: not empty, and either free of
`{` or a `{`, a column text that `stoi` reads as a positive integer, and a
`}`. -/
def well_formed_token (tok : List Char) : Prop :=
  tok ≠ [] ∧
  (('{' ∉ tok) ∨
   ∃ column_no column, tok = ['{'] ++ column_no ++ ['}'] ∧
     stoi column_no = .ok column ∧ 0 < column)

/-! ## Auxiliary definitions used in the statements -/

/-- The quality test of the delivery functions, on video. -/
def video_init_required (client : WebSocketClient) (next_vq : VideoFormat) : Bool :=
  match client.curr_vq with
  | none => true
  | some curr_vq => decide (next_vq ≠ curr_vq)

/-- The quality test of the delivery functions, on audio. -/
def audio_init_required (client : WebSocketClient) (next_aq : AudioFormat) : Bool :=
  match client.curr_aq with
  | none => true
  | some curr_aq => decide (next_aq ≠ curr_aq)

/-- The scheduling ticks of one session, each with the channel registry as
it is at that tick (the stores change between ticks): the frames that the
calls of `serve_video_to_client` queued, in order.  Each tick is one call of
`serve_client`, that is the three `assert`s, the video step and the audio
step; a fault ends the run. -/
def video_trace (codec : MessageCodec) :
    List ChannelMap → WebSocketServer → WebSocketClient → List WSFrame
  | [], _, _ => []
  | channels :: rest, server, client =>
    if !client.channel.isSome || !client.next_vts.isSome || !client.next_ats.isSome then []
    else
      match serve_video_to_client codec channels server client with
      | .error _ => []
      | .ok (server1, client1) =>
        let queued := (server1.queue.drop server.queue.length).map Prod.snd
        match serve_audio_to_client codec channels server1 client1 with
        | .error _ => queued
        | .ok (server2, client2) => queued ++ video_trace codec rest server2 client2

/-- The frame `serve_video_to_client` builds from a header for quality `q`,
timestamp `t`, stride `d` and the payload `body`. -/
def video_frame_of (codec : MessageCodec) (q : VideoFormat) (t d : Nat) (body : Bytes) :
    WSFrame :=
  ⟨true, OpCode.Binary, codec.make_video_msg q.to_string t d 0 body.length ++ body⟩

/-- The frame `serve_audio_to_client` builds from a header for quality `q`,
timestamp `t`, stride `d` and the payload `body`. -/
def audio_frame_of (codec : MessageCodec) (q : AudioFormat) (t d : Nat) (body : Bytes) :
    WSFrame :=
  ⟨true, OpCode.Binary, codec.make_audio_msg q.to_string t d 0 body.length ++ body⟩

/-- Modelled from the spec: the readiness predicate of a store, `ready(t)`:
some quality of the list has both its initialization blob and its segment at
timestamp `t`. -/
def store_ready {Q : Type} (formats : List Q) (init : Q → Except Fault Bytes)
    (data : Q → Nat → Except Fault Bytes) (t : Nat) : Bool :=
  formats.any (fun q => (init q).toBool && (data q t).toBool)

/-- The registry `m` is the registry `m0` at some moment: each channel of
`m` is a channel of `m0` with the same quality lists.  The stores are free to
differ. -/
def ChannelMap.snapshot_of (m m0 : ChannelMap) : Prop :=
  ∀ name ch, m.find name = some ch →
    ∃ ch0, m0.find name = some ch0 ∧ ch.vformats = ch0.vformats ∧
      ch.aformats = ch0.aformats

/-- The session states reachable from a newly opened connection through
bind and rebind (`handle_client_init`), buffer reports
(`handle_client_info`) and delivery (`serve_video_to_client`,
`serve_audio_to_client`), each step run against the registry as it is at
that moment. -/
inductive Reachable (codec : MessageCodec) (channels0 : ChannelMap) :
    WebSocketClient → Prop where
  | opened (connection_id : Nat) :
      Reachable codec channels0 (WebSocketClient.new connection_id)
  | bind {channels : ChannelMap} {server server1 : WebSocketServer}
      {client client1 : WebSocketClient} {message : ClientInitMessage} :
      Reachable codec channels0 client → channels.snapshot_of channels0 →
      handle_client_init codec channels server client message = .ok (server1, client1) →
      Reachable codec channels0 client1
  | info {client : WebSocketClient} {message : ClientInfoMessage} :
      Reachable codec channels0 client →
      Reachable codec channels0 (handle_client_info client message)
  | video {channels : ChannelMap} {server server1 : WebSocketServer}
      {client client1 : WebSocketClient} :
      Reachable codec channels0 client → channels.snapshot_of channels0 →
      serve_video_to_client codec channels server client = .ok (server1, client1) →
      Reachable codec channels0 client1
  | audio {channels : ChannelMap} {server server1 : WebSocketServer}
      {client client1 : WebSocketClient} :
      Reachable codec channels0 client → channels.snapshot_of channels0 →
      serve_audio_to_client codec channels server client = .ok (server1, client1) →
      Reachable codec channels0 client1

/-- The invariant on the current qualities of a session: when set, each
belongs to the quality list of the channel the session is bound to. -/
def quality_inv (channels0 : ChannelMap) (client : WebSocketClient) : Prop :=
  ∀ name, client.channel = some name →
    (∀ q, client.curr_vq = some q →
      ∃ ch0, channels0.find name = some ch0 ∧ q ∈ ch0.vformats) ∧
    (∀ q, client.curr_aq = some q →
      ∃ ch0, channels0.find name = some ch0 ∧ q ∈ ch0.aformats)

/-! ## Fixtures: a concrete codec and concrete channels -/

/-- The `k` low-order bytes of `n`, least significant first. -/
def le_bytes : Nat → Nat → Bytes
  | 0, _ => []
  | k + 1, n => UInt8.ofNat (n % 256) :: le_bytes k (n / 256)

/-- The bytes of a name, one per character, closed by a zero byte. -/
def name_bytes (s : String) : Bytes :=
  s.toList.map (fun c => UInt8.ofNat c.toNat) ++ [0]

/-- A concrete codec: a tag byte, then the fields in order, numbers on eight
bytes.  An inbound payload is a tag byte (0 for Init, 1 for Info) and a body;
the body of an Init is the index of the channel in a fixed catalog. -/
def fixture_codec : MessageCodec where
  make_video_msg q ts d off len :=
    [86] ++ name_bytes q ++ le_bytes 8 ts ++ le_bytes 8 d ++ le_bytes 8 off ++ le_bytes 8 len
  make_audio_msg q ts d off len :=
    [65] ++ name_bytes q ++ le_bytes 8 ts ++ le_bytes 8 d ++ le_bytes 8 off ++ le_bytes 8 len
  make_server_init_msg ch vc ac timescale vts :=
    [73] ++ name_bytes ch ++ name_bytes vc ++ name_bytes ac ++ le_bytes 8 timescale
      ++ le_bytes 8 vts
  make_server_hello_msg names := [72] ++ (names.map name_bytes).flatten
  unpack_client_msg payload :=
    match payload with
    | 0 :: body => .ok (ClientMessage.Init, body)
    | 1 :: body => .ok (ClientMessage.Info, body)
    | _ :: body => .ok (ClientMessage.Unknown, body)
    | [] => .error Fault.bad_client_message
  parse_client_init_msg body :=
    match body with
    | [1] => .ok ⟨"c1"⟩
    | [2] => .ok ⟨"c2"⟩
    | [_] => .ok ⟨"nowhere"⟩
    | _ => .error Fault.bad_client_message
  parse_client_info_msg body :=
    match body with
    | [a, v] => .ok ⟨a.toNat, v.toNat⟩
    | _ => .error Fault.bad_client_message

/-- The quality `1080p`. -/
def q1080 : VideoFormat := ⟨"1080p"⟩

/-- The quality `720p`. -/
def q720 : VideoFormat := ⟨"720p"⟩

/-- The quality `128k`. -/
def a128 : AudioFormat := ⟨"128k"⟩

/-- The channel `c1` of the cold-join scenario: timescale 90000, video stride
180000, one video quality `1080p` with its initialization blob and the
segments at 180000, 360000 and 540000 (and those at the truncated cursor
values 32320 and 212320, for the runs that start from them); one audio
quality with a segment at every multiple of its stride 432000. -/
def fixture_c1 : Channel where
  name := "c1"
  vcodec := "avc1"
  acodec := "opus"
  timescale := 90000
  vduration := 180000
  aduration := 432000
  vformats := [q1080]
  aformats := [a128]
  vdata q t :=
    if q = q1080 ∧ t ∈ [180000, 360000, 540000, 32320, 212320] then .ok [10, 11, 12]
    else .error Fault.store_failure
  vinit q := if q = q1080 then .ok [1, 2] else .error Fault.store_failure
  adata q t :=
    if q = a128 ∧ t % 432000 = 0 then .ok [20, 21] else .error Fault.store_failure
  ainit q := if q = a128 then .ok [3] else .error Fault.store_failure
  vready t := t ∈ [180000, 360000, 540000, 32320, 212320]
  aready t := t % 432000 = 0
  init_vts := .ok 360000
  find_ats vts := vts / 432000 * 432000

/-- A channel `c2` with two video qualities of which only the second, `720p`,
has its initialization blob and a segment at timestamp 0; the audio segment
at 0 is there.  Readiness is the one of the spec, `store_ready`. -/
def fixture_c2 : Channel where
  name := "c2"
  vcodec := "avc1"
  acodec := "opus"
  timescale := 90000
  vduration := 180000
  aduration := 432000
  vformats := [q1080, q720]
  aformats := [a128]
  vdata q t := if q = q720 ∧ t = 0 then .ok [30, 31] else .error Fault.store_failure
  vinit q := if q = q720 then .ok [4] else .error Fault.store_failure
  adata q t := if q = a128 ∧ t = 0 then .ok [20, 21] else .error Fault.store_failure
  ainit q := if q = a128 then .ok [3] else .error Fault.store_failure
  vready t :=
    store_ready [q1080, q720]
      (fun q => if q = q720 then .ok [4] else .error Fault.store_failure)
      (fun q t => if q = q720 ∧ t = 0 then .ok [30, 31] else .error Fault.store_failure) t
  aready t :=
    store_ready [a128]
      (fun q => if q = a128 then .ok [3] else .error Fault.store_failure)
      (fun q t => if q = a128 ∧ t = 0 then .ok [20, 21] else .error Fault.store_failure) t
  init_vts := .ok 0
  find_ats vts := vts / 432000 * 432000

/-- A session bound to `c1` with the video cursor at 360000 and the audio
cursor at 0, before any delivery. -/
def fixture_bound : WebSocketClient := (WebSocketClient.new 7).init "c1" 360000 0

/-- A session bound to `c1` whose video cursor, 720000, and audio cursor, 1,
are at timestamps the store does not have. -/
def fixture_starved : WebSocketClient := (WebSocketClient.new 7).init "c1" 720000 1

/-- A session bound to `c2` with both cursors at 0, before any delivery. -/
def fixture_bound_c2 : WebSocketClient := (WebSocketClient.new 9).init "c2" 0 0

/-- The session of connection 7 after a bind to `c1` through
`handle_client_init` and one video delivery. -/
def fixture_served : WebSocketClient :=
  { connection_id := 7, channel := some "c1", next_vts := some 212320,
    next_ats := some 0, curr_vq := some ⟨"1080p"⟩, curr_aq := none,
    video_playback_buf := 0, audio_playback_buf := 0 }

/-- The registry with the channels `c1` and `c2`. -/
def fixture_channels : ChannelMap := [("c1", fixture_c1), ("c2", fixture_c2)]

/-! ## Basic facts about the embedding -/

section Lemmas

/-- What a completed call of `serve_video_to_client` did. -/
theorem serve_video_ok {codec : MessageCodec} {channels : ChannelMap}
    {server server1 : WebSocketServer} {client client1 : WebSocketClient}
    (h : serve_video_to_client codec channels server client = .ok (server1, client1)) :
    ∃ name ch t, client.channel = some name ∧ channels.find name = some ch ∧
      client.next_vts = some t ∧
      ((ch.vready t = false ∧ server1 = server ∧ client1 = client) ∨
       (ch.vready t = true ∧ ∃ q video_data init_data payload,
          select_video_quality channels client = .ok q ∧
          ch.vdata q t = .ok video_data ∧ ch.vinit q = .ok init_data ∧
          assemble_frame (codec.make_video_msg q.to_string t ch.vduration 0)
            (video_init_required client q) init_data video_data = .ok payload ∧
          server1 = server.queue_frame client.connection_id ⟨true, OpCode.Binary, payload⟩ ∧
          client1 = { client with next_vts := some ((t + ch.vduration) % U64),
                                  curr_vq := some q })) := by
  unfold serve_video_to_client at h
  cases hc : client.channel with
  | none => simp [hc, value, bind, Except.bind] at h
  | some name =>
    cases hf : channels.find name with
    | none => simp [hc, value, ChannelMap.at, hf, bind, Except.bind] at h
    | some ch =>
      cases ht : client.next_vts with
      | none => simp [hc, value, ChannelMap.at, hf, ht, bind, Except.bind] at h
      | some t =>
        refine ⟨name, ch, t, rfl, hf, rfl, ?_⟩
        cases hr : ch.vready t with
        | false =>
          simp [hc, value, ChannelMap.at, hf, ht, hr, bind, Except.bind, pure, Except.pure] at h
          exact Or.inl ⟨rfl, h.1.symm, h.2.symm⟩
        | true =>
          right
          refine ⟨rfl, ?_⟩
          simp only [hc, value, ChannelMap.at, hf, ht, hr, bind, Except.bind, pure, Except.pure] at h
          cases hq : select_video_quality channels client with
          | error e => simp [hq] at h
          | ok q =>
            cases hd : ch.vdata q t with
            | error e => simp [hq, hd] at h
            | ok vd =>
              cases hi : ch.vinit q with
              | error e => simp [hq, hd, hi] at h
              | ok idata =>
                cases ha : assemble_frame (codec.make_video_msg q.to_string t ch.vduration 0)
                    (video_init_required client q) idata vd with
                | error e =>
                  simp [hq, hd, hi, video_init_required] at h ha
                  simp [ha] at h
                | ok payload =>
                  simp [hq, hd, hi, video_init_required] at h ha
                  simp [ha] at h
                  exact ⟨q, vd, idata, payload, rfl, hd, hi, by simpa [video_init_required] using ha,
                    h.1.symm, h.2.symm⟩

theorem memcpy_eq_ok {dst src out : Bytes} {off : Nat} (h : memcpy dst off src = .ok out) :
    off + src.length ≤ dst.length ∧ out = dst.take off ++ src ++ dst.drop (off + src.length) := by
  unfold memcpy at h
  split at h
  · rename_i hle
    injection h with h
    exact ⟨hle, h.symm⟩
  · cases h

theorem memcpy_length {dst src out : Bytes} {off : Nat} (h : memcpy dst off src = .ok out) :
    out.length = dst.length := by
  obtain ⟨hle, rfl⟩ := memcpy_eq_ok h
  simp
  omega

theorem memcpy_at_eq_ok {dst src out : Bytes} {off : Int} (h : memcpy_at dst off src = .ok out) :
    0 ≤ off ∧ memcpy dst off.toNat src = .ok out := by
  unfold memcpy_at at h
  split at h
  · cases h
  · rename_i hneg
    exact ⟨by omega, h⟩

theorem int_of_size_small {n : Nat} (h : n < 2 ^ 31) : int_of_size n = (n : Int) := by
  unfold int_of_size
  have h1 : n % 2 ^ 32 = n := Nat.mod_eq_of_lt (by omega)
  rw [h1, if_pos h]

theorem assemble_frame_true {make_msg : Nat → Bytes} {init_data media_data out : Bytes}
    (h : assemble_frame make_msg true init_data media_data = .ok out) :
    ∃ buf1 buf2,
      memcpy (List.replicate (((make_msg (payload_len_of true init_data media_data)).length +
        payload_len_of true init_data media_data) % U64) 0) 0
        (make_msg (payload_len_of true init_data media_data)) = .ok buf1 ∧
      memcpy buf1 (make_msg (payload_len_of true init_data media_data)).length init_data
        = .ok buf2 ∧
      memcpy_at buf2 (int_of_size (((make_msg (payload_len_of true init_data media_data)).length
        + init_data.length) % U64)) media_data = .ok out := by
  unfold assemble_frame at h
  simp only [bind, Except.bind, if_true, payload_len_of] at h
  simp only [payload_len_of, if_true]
  split at h
  · cases h
  · rename_i buf1 h1
    split at h
    · cases h
    · rename_i buf2 h2
      exact ⟨buf1, buf2, h1, h2, h⟩

theorem assemble_frame_false {make_msg : Nat → Bytes} {init_data media_data out : Bytes}
    (h : assemble_frame make_msg false init_data media_data = .ok out) :
    ∃ buf1,
      memcpy (List.replicate (((make_msg media_data.length).length +
        media_data.length) % U64) 0) 0 (make_msg media_data.length) = .ok buf1 ∧
      memcpy_at buf1 (int_of_size (make_msg media_data.length).length) media_data
        = .ok out := by
  unfold assemble_frame at h
  simp only [bind, Except.bind, Bool.false_eq_true, if_false, payload_len_of] at h
  split at h
  · cases h
  · rename_i buf1 h1
    exact ⟨buf1, h1, h⟩

/-- A frame that was assembled is as long as its metadata header plus the
value of `payload_len` written into the header, whatever the sizes. -/
theorem assemble_frame_length {make_msg : Nat → Bytes} {b : Bool}
    {init_data media_data out : Bytes}
    (h : assemble_frame make_msg b init_data media_data = .ok out) :
    out.length = (make_msg (payload_len_of b init_data media_data)).length +
      payload_len_of b init_data media_data := by
  cases b with
  | true =>
    obtain ⟨buf1, buf2, h1, h2, h3⟩ := assemble_frame_true h
    have h3 := (memcpy_at_eq_ok h3).2
    have l3 := memcpy_length h3
    have l2 := memcpy_length h2
    have l1 := memcpy_length h1
    have b1 := (memcpy_eq_ok h1).1
    have hp : payload_len_of true init_data media_data < U64 := by
      simp only [payload_len_of, if_true]
      exact Nat.mod_lt _ (by decide)
    generalize payload_len_of true init_data media_data = pl at *
    generalize (make_msg pl).length = hl at *
    rw [List.length_replicate] at l1 b1
    rw [l3, l2, l1]
    simp only [U64] at *
    omega
  | false =>
    obtain ⟨buf1, h1, h3⟩ := assemble_frame_false h
    have h3 := (memcpy_at_eq_ok h3).2
    have l3 := memcpy_length h3
    have l1 := memcpy_length h1
    have b1 := (memcpy_eq_ok h1).1
    have b3 := (memcpy_eq_ok h3).1
    simp only [payload_len_of, Bool.false_eq_true, if_false]
    generalize (make_msg media_data.length).length = hl at *
    rw [List.length_replicate] at l1 b1
    rw [l1] at b3
    rw [l3, l1]
    simp only [U64] at *
    omega

theorem memcpy_fill (a src : Bytes) (k : Nat) :
    memcpy (a ++ List.replicate (src.length + k) 0) a.length src
      = .ok ((a ++ src) ++ List.replicate k 0) := by
  unfold memcpy
  have hle : a.length + src.length ≤ (a ++ List.replicate (src.length + k) 0).length := by
    simp
  rw [if_pos hle]
  congr 1
  rw [List.take_left, List.drop_append, List.drop_replicate]
  simp

/-- A frame whose header, initialization blob and segment together stay below
`2 ^ 31` bytes is assembled without a fault, as the header followed by the
initialization blob, when required, and the segment. -/
theorem assemble_frame_small (make_msg : Nat → Bytes) (b : Bool)
    (init_data media_data : Bytes)
    (hsmall : ∀ len, (make_msg len).length + init_data.length + media_data.length < 2 ^ 31) :
    assemble_frame make_msg b init_data media_data =
      .ok (if b then make_msg (media_data.length + init_data.length) ++ init_data ++ media_data
           else make_msg media_data.length ++ media_data) := by
  unfold assemble_frame payload_len_of
  cases b with
  | true =>
    have hs := hsmall (media_data.length + init_data.length)
    have hp : (media_data.length + init_data.length) % U64
        = media_data.length + init_data.length :=
      Nat.mod_eq_of_lt (by simp only [U64]; omega)
    simp only [if_true, hp]
    generalize hm : make_msg (media_data.length + init_data.length) = metadata at hs ⊢
    have hn : (metadata.length + (media_data.length + init_data.length)) % U64
        = metadata.length + (init_data.length + media_data.length) := by
      rw [Nat.mod_eq_of_lt (by simp only [U64]; omega)]
      omega
    have hb : (metadata.length + init_data.length) % U64 = metadata.length + init_data.length :=
      Nat.mod_eq_of_lt (by simp only [U64]; omega)
    have h1 := memcpy_fill [] metadata (init_data.length + media_data.length)
    have h2 := memcpy_fill metadata init_data media_data.length
    have h3 := memcpy_fill (metadata ++ init_data) media_data 0
    simp only [List.nil_append, List.length_nil, List.length_append, Nat.add_zero,
      List.replicate_zero, List.append_nil] at h1 h2 h3
    have hi : int_of_size (metadata.length + init_data.length)
        = ((metadata.length + init_data.length : Nat) : Int) :=
      int_of_size_small (by omega)
    simp only [bind, Except.bind, hn, hb, h1, h2, hi, memcpy_at]
    rw [if_neg (by omega)]
    simp only [Int.toNat_ofNat, h3]
  | false =>
    have hs := hsmall media_data.length
    simp only [Bool.false_eq_true, if_false]
    generalize hm : make_msg media_data.length = metadata at hs ⊢
    have hn : (metadata.length + media_data.length) % U64
        = metadata.length + media_data.length :=
      Nat.mod_eq_of_lt (by simp only [U64]; omega)
    have h1 := memcpy_fill [] metadata media_data.length
    have h3 := memcpy_fill metadata media_data 0
    simp only [List.nil_append, List.length_nil, Nat.add_zero,
      List.replicate_zero, List.append_nil] at h1 h3
    have hi : int_of_size metadata.length = ((metadata.length : Nat) : Int) :=
      int_of_size_small (by omega)
    simp only [bind, Except.bind, hn, h1, hi, memcpy_at]
    rw [if_neg (by omega)]
    simp only [Int.toNat_ofNat, h3]

/-- What a completed call of `serve_audio_to_client` did. -/
theorem serve_audio_ok {codec : MessageCodec} {channels : ChannelMap}
    {server server1 : WebSocketServer} {client client1 : WebSocketClient}
    (h : serve_audio_to_client codec channels server client = .ok (server1, client1)) :
    ∃ name ch t, client.channel = some name ∧ channels.find name = some ch ∧
      client.next_ats = some t ∧
      ((ch.aready t = false ∧ server1 = server ∧ client1 = client) ∨
       (ch.aready t = true ∧ ∃ q audio_data init_data payload,
          select_audio_quality channels client = .ok q ∧
          ch.adata q t = .ok audio_data ∧ ch.ainit q = .ok init_data ∧
          assemble_frame (codec.make_audio_msg q.to_string t ch.aduration 0)
            (audio_init_required client q) init_data audio_data = .ok payload ∧
          server1 = server.queue_frame client.connection_id ⟨true, OpCode.Binary, payload⟩ ∧
          client1 = { client with next_ats := some ((t + ch.aduration) % U64),
                                  curr_aq := some q })) := by
  unfold serve_audio_to_client at h
  cases hc : client.channel with
  | none => simp [hc, value, bind, Except.bind] at h
  | some name =>
    cases hf : channels.find name with
    | none => simp [hc, value, ChannelMap.at, hf, bind, Except.bind] at h
    | some ch =>
      cases ht : client.next_ats with
      | none => simp [hc, value, ChannelMap.at, hf, ht, bind, Except.bind] at h
      | some t =>
        refine ⟨name, ch, t, rfl, hf, rfl, ?_⟩
        cases hr : ch.aready t with
        | false =>
          simp [hc, value, ChannelMap.at, hf, ht, hr, bind, Except.bind, pure, Except.pure] at h
          exact Or.inl ⟨rfl, h.1.symm, h.2.symm⟩
        | true =>
          right
          refine ⟨rfl, ?_⟩
          simp only [hc, value, ChannelMap.at, hf, ht, hr, bind, Except.bind, pure, Except.pure] at h
          cases hq : select_audio_quality channels client with
          | error e => simp [hq] at h
          | ok q =>
            cases hd : ch.adata q t with
            | error e => simp [hq, hd] at h
            | ok vd =>
              cases hi : ch.ainit q with
              | error e => simp [hq, hd, hi] at h
              | ok idata =>
                cases ha : assemble_frame (codec.make_audio_msg q.to_string t ch.aduration 0)
                    (audio_init_required client q) idata vd with
                | error e =>
                  simp [hq, hd, hi, audio_init_required] at h ha
                  simp [ha] at h
                | ok payload =>
                  simp [hq, hd, hi, audio_init_required] at h ha
                  simp [ha] at h
                  exact ⟨q, vd, idata, payload, rfl, hd, hi, by simpa [audio_init_required] using ha,
                    h.1.symm, h.2.symm⟩

theorem serve_video_not_ready (codec : MessageCodec) {channels : ChannelMap}
    (server : WebSocketServer) (client : WebSocketClient) {name : String} {ch : Channel}
    {t : Nat} (hc : client.channel = some name) (hf : channels.find name = some ch)
    (ht : client.next_vts = some t) (hr : ch.vready t = false) :
    serve_video_to_client codec channels server client = .ok (server, client) := by
  unfold serve_video_to_client
  simp [hc, value, ChannelMap.at, hf, ht, hr, bind, Except.bind, pure, Except.pure]

theorem serve_audio_not_ready (codec : MessageCodec) {channels : ChannelMap}
    (server : WebSocketServer) (client : WebSocketClient) {name : String} {ch : Channel}
    {t : Nat} (hc : client.channel = some name) (hf : channels.find name = some ch)
    (ht : client.next_ats = some t) (hr : ch.aready t = false) :
    serve_audio_to_client codec channels server client = .ok (server, client) := by
  unfold serve_audio_to_client
  simp [hc, value, ChannelMap.at, hf, ht, hr, bind, Except.bind, pure, Except.pure]

theorem serve_video_ready (codec : MessageCodec) {channels : ChannelMap}
    (server : WebSocketServer) (client : WebSocketClient) {name : String} {ch : Channel}
    {t : Nat} {q : VideoFormat} {video_data init_data payload : Bytes}
    (hc : client.channel = some name) (hf : channels.find name = some ch)
    (ht : client.next_vts = some t) (hr : ch.vready t = true)
    (hq : select_video_quality channels client = .ok q)
    (hd : ch.vdata q t = .ok video_data) (hi : ch.vinit q = .ok init_data)
    (ha : assemble_frame (codec.make_video_msg q.to_string t ch.vduration 0)
      (video_init_required client q) init_data video_data = .ok payload) :
    serve_video_to_client codec channels server client =
      .ok (server.queue_frame client.connection_id ⟨true, OpCode.Binary, payload⟩,
           { client with next_vts := some ((t + ch.vduration) % U64), curr_vq := some q }) := by
  unfold serve_video_to_client
  unfold video_init_required at ha
  simp only [hc, value, ChannelMap.at, hf, ht, hr, hq, hd, hi, bind, Except.bind, pure,
    Except.pure, Bool.not_true, Bool.false_eq_true, if_false, ha]

theorem serve_audio_ready (codec : MessageCodec) {channels : ChannelMap}
    (server : WebSocketServer) (client : WebSocketClient) {name : String} {ch : Channel}
    {t : Nat} {q : AudioFormat} {audio_data init_data payload : Bytes}
    (hc : client.channel = some name) (hf : channels.find name = some ch)
    (ht : client.next_ats = some t) (hr : ch.aready t = true)
    (hq : select_audio_quality channels client = .ok q)
    (hd : ch.adata q t = .ok audio_data) (hi : ch.ainit q = .ok init_data)
    (ha : assemble_frame (codec.make_audio_msg q.to_string t ch.aduration 0)
      (audio_init_required client q) init_data audio_data = .ok payload) :
    serve_audio_to_client codec channels server client =
      .ok (server.queue_frame client.connection_id ⟨true, OpCode.Binary, payload⟩,
           { client with next_ats := some ((t + ch.aduration) % U64), curr_aq := some q }) := by
  unfold serve_audio_to_client
  unfold audio_init_required at ha
  simp only [hc, value, ChannelMap.at, hf, ht, hr, hq, hd, hi, bind, Except.bind, pure,
    Except.pure, Bool.not_true, Bool.false_eq_true, if_false, ha]

theorem video_init_required_iff (client : WebSocketClient) (q : VideoFormat) :
    video_init_required client q = true ↔ client.curr_vq ≠ some q := by
  unfold video_init_required
  cases h : client.curr_vq with
  | none => simp
  | some q1 =>
    simp only [decide_eq_true_eq, ne_eq, Option.some.injEq]
    exact ⟨fun hne heq => hne heq.symm, fun hne heq => hne heq.symm⟩

theorem audio_init_required_iff (client : WebSocketClient) (q : AudioFormat) :
    audio_init_required client q = true ↔ client.curr_aq ≠ some q := by
  unfold audio_init_required
  cases h : client.curr_aq with
  | none => simp
  | some q1 =>
    simp only [decide_eq_true_eq, ne_eq, Option.some.injEq]
    exact ⟨fun hne heq => hne heq.symm, fun hne heq => hne heq.symm⟩

theorem payload_len_of_small (b : Bool) {init_data media_data : Bytes}
    (h : init_data.length + media_data.length < 2 ^ 31) :
    payload_len_of b init_data media_data =
      if b then media_data.length + init_data.length else media_data.length := by
  unfold payload_len_of
  cases b with
  | true =>
    simp only [if_true]
    exact Nat.mod_eq_of_lt (by simp only [U64]; omega)
  | false => rfl

/-- The payload of an assembled frame below `2 ^ 31` bytes: the header
written for `payload_len`, then exactly `payload_len` bytes. -/
theorem assemble_frame_split {make_msg : Nat → Bytes} {b : Bool}
    {init_data media_data out : Bytes}
    (hsmall : ∀ len, (make_msg len).length + init_data.length + media_data.length < 2 ^ 31)
    (h : assemble_frame make_msg b init_data media_data = .ok out) :
    ∃ body, out = make_msg (payload_len_of b init_data media_data) ++ body ∧
      body.length = payload_len_of b init_data media_data := by
  rw [assemble_frame_small make_msg b init_data media_data hsmall] at h
  injection h with h
  have hs := hsmall 0
  rw [payload_len_of_small b (by omega)]
  cases b with
  | true =>
    refine ⟨init_data ++ media_data, ?_, ?_⟩
    · rw [← h]; simp
    · simp; omega
  | false =>
    refine ⟨media_data, ?_, ?_⟩
    · rw [← h]; simp
    · simp

/-- Below `2 ^ 31` bytes the video frame is assembled, as a header for
`(q, t, d)` followed by a body of the length the header carries. -/
theorem assemble_video_frame_of (codec : MessageCodec) (q : VideoFormat) (t d : Nat)
    (b : Bool) (init_data video_data : Bytes)
    (hsmall : ∀ len, (codec.make_video_msg q.to_string t d 0 len).length
      + init_data.length + video_data.length < 2 ^ 31) :
    ∃ body, assemble_frame (codec.make_video_msg q.to_string t d 0) b init_data video_data
      = .ok (video_frame_of codec q t d body).payload := by
  obtain ⟨body, hp, hlen⟩ := assemble_frame_split hsmall
    (assemble_frame_small (codec.make_video_msg q.to_string t d 0) b init_data video_data hsmall)
  refine ⟨body, ?_⟩
  rw [assemble_frame_small _ b init_data video_data hsmall, hp]
  simp only [video_frame_of, hlen]

/-- Below `2 ^ 31` bytes the audio frame is assembled, as a header for
`(q, t, d)` followed by a body of the length the header carries. -/
theorem assemble_audio_frame_of (codec : MessageCodec) (q : AudioFormat) (t d : Nat)
    (b : Bool) (init_data audio_data : Bytes)
    (hsmall : ∀ len, (codec.make_audio_msg q.to_string t d 0 len).length
      + init_data.length + audio_data.length < 2 ^ 31) :
    ∃ body, assemble_frame (codec.make_audio_msg q.to_string t d 0) b init_data audio_data
      = .ok (audio_frame_of codec q t d body).payload := by
  obtain ⟨body, hp, hlen⟩ := assemble_frame_split hsmall
    (assemble_frame_small (codec.make_audio_msg q.to_string t d 0) b init_data audio_data hsmall)
  refine ⟨body, ?_⟩
  rw [assemble_frame_small _ b init_data audio_data hsmall, hp]
  simp only [audio_frame_of, hlen]

/-- On a session with a channel and both cursors the three `assert`s of
`serve_client` pass. -/
theorem serve_client_bound (codec : MessageCodec) (channels : ChannelMap)
    (server : WebSocketServer) {client : WebSocketClient} {name : String} {tv ta : Nat}
    (hc : client.channel = some name) (htv : client.next_vts = some tv)
    (hta : client.next_ats = some ta) :
    serve_client codec channels server client =
      match serve_video_to_client codec channels server client with
      | .error e => ⟨server, client, some e⟩
      | .ok (server1, client1) =>
        match serve_audio_to_client codec channels server1 client1 with
        | .error e => ⟨server1, client1, some e⟩
        | .ok (server2, client2) => ⟨server2, client2, none⟩ := by
  unfold serve_client
  simp [hc, htv, hta]

/-- The audio step leaves the channel binding and the video cursor alone. -/
theorem serve_audio_keeps_video {codec : MessageCodec} {channels : ChannelMap}
    {server server1 : WebSocketServer} {client client1 : WebSocketClient}
    (h : serve_audio_to_client codec channels server client = .ok (server1, client1)) :
    client1.channel = client.channel ∧ client1.next_vts = client.next_vts ∧
      client1.curr_vq = client.curr_vq := by
  obtain ⟨_, _, _, _, _, _, hcase⟩ := serve_audio_ok h
  rcases hcase with ⟨_, _, hcl⟩ | ⟨_, _, _, _, _, _, _, _, _, _, hcl⟩
  · rw [hcl]; exact ⟨rfl, rfl, rfl⟩
  · rw [hcl]; exact ⟨rfl, rfl, rfl⟩

/-- One video step of a tick: what it queued and where it left the cursor. -/
theorem video_step {codec : MessageCodec} {channels : ChannelMap}
    {server server1 : WebSocketServer} {client client1 : WebSocketClient}
    {name : String} {t0 Dv : Nat}
    (hc : client.channel = some name) (ht : client.next_vts = some t0)
    (hDv : ∀ ch, channels.find name = some ch → ch.vduration = Dv)
    (hsmall : ∀ ch, channels.find name = some ch → ∀ q t len i v,
      ch.vinit q = .ok i → ch.vdata q t = .ok v →
      (codec.make_video_msg q.to_string t Dv 0 len).length + i.length + v.length < 2 ^ 31)
    (h : serve_video_to_client codec channels server client = .ok (server1, client1)) :
    client1.channel = some name ∧
    (((server1.queue.drop server.queue.length).map Prod.snd = [] ∧
        client1.next_vts = some t0) ∨
     (∃ q body, (server1.queue.drop server.queue.length).map Prod.snd
          = [video_frame_of codec q t0 Dv body] ∧
        client1.next_vts = some ((t0 + Dv) % U64))) := by
  obtain ⟨name1, ch, t1, hc1, hf, ht1, hcase⟩ := serve_video_ok h
  have hn : name1 = name := by rw [hc] at hc1; exact (Option.some.inj hc1).symm
  subst hn
  have htt : t1 = t0 := by rw [ht] at ht1; exact (Option.some.inj ht1).symm
  subst htt
  have hd := hDv ch hf
  rcases hcase with ⟨_, hs, hcl⟩ | ⟨_, q, vd, idata, payload, _, hvd, hvi, ha, hs, hcl⟩
  · subst hs hcl
    exact ⟨hc, Or.inl ⟨by simp, ht⟩⟩
  · rw [hd] at ha
    obtain ⟨body, hp, hlen⟩ :=
      assemble_frame_split (fun len => hsmall ch hf q t1 len idata vd hvi hvd) ha
    subst hs hcl
    refine ⟨hc, Or.inr ⟨q, body, ?_, by rw [hd]⟩⟩
    simp only [WebSocketServer.queue_frame, List.drop_left, List.map_cons, List.map_nil,
      video_frame_of]
    rw [hp, hlen]

/-- The frames of a run of ticks, by position: frame `k` is a video frame for
the timestamp `(t0 + k * Dv) % 2 ^ 64`. -/
theorem video_trace_get (codec : MessageCodec) (name : String) (Dv : Nat) :
    ∀ (ticks : List ChannelMap) (server : WebSocketServer) (client : WebSocketClient)
      (t0 : Nat),
      client.channel = some name → client.next_vts = some t0 → t0 < U64 →
      (∀ channels ∈ ticks, ∀ ch, channels.find name = some ch → ch.vduration = Dv) →
      (∀ channels ∈ ticks, ∀ ch, channels.find name = some ch → ∀ q t len i v,
        ch.vinit q = .ok i → ch.vdata q t = .ok v →
        (codec.make_video_msg q.to_string t Dv 0 len).length + i.length + v.length
          < 2 ^ 31) →
      ∀ k frame, (video_trace codec ticks server client)[k]? = some frame →
        ∃ q body, frame = video_frame_of codec q ((t0 + k * Dv) % U64) Dv body := by
  intro ticks
  induction ticks with
  | nil =>
    intro server client t0 _ _ _ _ _ k frame hk
    simp [video_trace] at hk
  | cons channels rest ih =>
    intro server client t0 hc ht hlt hDv hsmall k frame hk
    have hDv0 := hDv channels (List.mem_cons_self _ _)
    have hsmall0 := hsmall channels (List.mem_cons_self _ _)
    have hDv1 : ∀ c ∈ rest, ∀ ch, c.find name = some ch → ch.vduration = Dv :=
      fun c hcm => hDv c (List.mem_cons_of_mem _ hcm)
    have hsmall1 : ∀ c ∈ rest, ∀ ch, c.find name = some ch → ∀ q t len i v,
        ch.vinit q = .ok i → ch.vdata q t = .ok v →
        (codec.make_video_msg q.to_string t Dv 0 len).length + i.length + v.length
          < 2 ^ 31 :=
      fun c hcm => hsmall c (List.mem_cons_of_mem _ hcm)
    have hmod0 : (t0 + 0 * Dv) % U64 = t0 := by
      rw [Nat.zero_mul, Nat.add_zero]; exact Nat.mod_eq_of_lt hlt
    have hmodS : ∀ j, ((t0 + Dv) % U64 + j * Dv) % U64 = (t0 + (j + 1) * Dv) % U64 := by
      intro j
      rw [Nat.mod_add_mod]
      congr 1
      rw [Nat.add_mul, Nat.one_mul]
      omega
    unfold video_trace at hk
    split at hk
    · simp at hk
    cases hv : serve_video_to_client codec channels server client with
    | error e => simp [hv] at hk
    | ok r1 =>
      obtain ⟨server1, client1⟩ := r1
      obtain ⟨hc1, hstep⟩ := video_step hc ht hDv0 hsmall0 hv
      simp only [hv] at hk
      cases ha : serve_audio_to_client codec channels server1 client1 with
      | error e =>
        simp only [ha] at hk
        rcases hstep with ⟨hq, _⟩ | ⟨q, body, hq, _⟩
        · rw [hq] at hk; simp at hk
        · rw [hq] at hk
          cases k with
          | zero =>
            simp only [List.getElem?_cons_zero, Option.some.injEq] at hk
            exact ⟨q, body, by rw [← hk, hmod0]⟩
          | succ k => simp at hk
      | ok r2 =>
        obtain ⟨server2, client2⟩ := r2
        obtain ⟨hc2, ht2, _⟩ := serve_audio_keeps_video ha
        simp only [ha] at hk
        rcases hstep with ⟨hq, ht1⟩ | ⟨q, body, hq, ht1⟩
        · rw [hq, List.nil_append] at hk
          exact ih server2 client2 t0 (hc2.trans hc1) (ht2.trans ht1) hlt hDv1 hsmall1
            k frame hk
        · rw [hq] at hk
          cases k with
          | zero =>
            simp only [List.singleton_append, List.getElem?_cons_zero,
              Option.some.injEq] at hk
            exact ⟨q, body, by rw [← hk, hmod0]⟩
          | succ k =>
            simp only [List.singleton_append, List.getElem?_cons_succ] at hk
            obtain ⟨q1, body1, hfr⟩ :=
              ih server2 client2 ((t0 + Dv) % U64) (hc2.trans hc1) (ht2.trans ht1)
                (Nat.mod_lt _ (by decide)) hDv1 hsmall1 k frame hk
            exact ⟨q1, body1, by rw [hfr, hmodS]⟩

theorem lookup_erase_self (clients : ClientMap) (id : Nat) :
    List.lookup id (clients.erase id) = none := by
  unfold ClientMap.erase
  induction clients with
  | nil => rfl
  | cons kv rest ih =>
    obtain ⟨k, c⟩ := kv
    by_cases hk : k = id
    · simpa [List.filter_cons, hk] using ih
    · have hb : (id == k) = false := by
        simpa using fun h : id = k => hk h.symm
      simpa [List.filter_cons, hk, List.lookup_cons, hb] using ih

theorem lookup_erase_ne (clients : ClientMap) {id j : Nat} (hj : j ≠ id) :
    List.lookup j (clients.erase id) = List.lookup j clients := by
  unfold ClientMap.erase
  induction clients with
  | nil => rfl
  | cons kv rest ih =>
    obtain ⟨k, c⟩ := kv
    by_cases hk : k = id
    · have hb : (j == id) = false := by
        simpa using hj
      simpa [List.filter_cons, hk, List.lookup_cons, hb] using ih
    · simp only [List.filter_cons, ne_eq, hk, not_false_eq_true, decide_True, if_true,
        List.lookup_cons]
      rw [ih]

theorem select_video_quality_ok {channels : ChannelMap} {client : WebSocketClient}
    {name : String} {ch : Channel} {q : VideoFormat}
    (hc : client.channel = some name) (hf : channels.find name = some ch)
    (h : select_video_quality channels client = .ok q) :
    ∃ first rest, ch.vformats = first :: rest ∧ q = client.curr_vq.getD first := by
  unfold select_video_quality at h
  simp only [hc, value, ChannelMap.at, hf, bind, Except.bind] at h
  cases hl : ch.vformats with
  | nil => rw [hl] at h; cases h
  | cons first rest =>
    rw [hl] at h
    injection h with h
    exact ⟨first, rest, rfl, h.symm⟩

theorem select_audio_quality_ok {channels : ChannelMap} {client : WebSocketClient}
    {name : String} {ch : Channel} {q : AudioFormat}
    (hc : client.channel = some name) (hf : channels.find name = some ch)
    (h : select_audio_quality channels client = .ok q) :
    ∃ first rest, ch.aformats = first :: rest ∧ q = client.curr_aq.getD first := by
  unfold select_audio_quality at h
  simp only [hc, value, ChannelMap.at, hf, bind, Except.bind] at h
  cases hl : ch.aformats with
  | nil => rw [hl] at h; cases h
  | cons first rest =>
    rw [hl] at h
    injection h with h
    exact ⟨first, rest, rfl, h.symm⟩

theorem select_video_quality_cons {channels : ChannelMap} {client : WebSocketClient}
    {name : String} {ch : Channel} {first : VideoFormat} {rest : List VideoFormat}
    (hc : client.channel = some name) (hf : channels.find name = some ch)
    (hl : ch.vformats = first :: rest) :
    select_video_quality channels client = .ok (client.curr_vq.getD first) := by
  unfold select_video_quality
  simp only [hc, value, ChannelMap.at, hf, bind, Except.bind, hl]

theorem select_audio_quality_cons {channels : ChannelMap} {client : WebSocketClient}
    {name : String} {ch : Channel} {first : AudioFormat} {rest : List AudioFormat}
    (hc : client.channel = some name) (hf : channels.find name = some ch)
    (hl : ch.aformats = first :: rest) :
    select_audio_quality channels client = .ok (client.curr_aq.getD first) := by
  unfold select_audio_quality
  simp only [hc, value, ChannelMap.at, hf, bind, Except.bind, hl]

/-- What a completed call of `handle_client_init` did to the session. -/
theorem handle_client_init_ok {codec : MessageCodec} {channels : ChannelMap}
    {server server1 : WebSocketServer} {client client1 : WebSocketClient}
    {message : ClientInitMessage}
    (h : handle_client_init codec channels server client message = .ok (server1, client1)) :
    ∃ ch v, channels.find message.channel = some ch ∧ ch.init_vts = .ok v ∧
      client1 = client.init ch.name (v % U16) (ch.find_ats (v % U16) % U16) ∧
      server1 = server.queue_frame client.connection_id
        ⟨true, OpCode.Binary, codec.make_server_init_msg ch.name ch.vcodec ch.acodec
          ch.timescale (v % U16)⟩ := by
  unfold handle_client_init at h
  cases hf : channels.find message.channel with
  | none =>
    simp [hf, bind, Except.bind, throw, throwThe, MonadExceptOf.throw] at h
  | some ch =>
    cases hv : ch.init_vts with
    | error e =>
      simp [hf, hv, ChannelMap.at, bind, Except.bind, pure, Except.pure] at h
    | ok v =>
      simp [hf, hv, ChannelMap.at, bind, Except.bind, pure, Except.pure,
        WebSocketClient.init, value] at h
      exact ⟨ch, v, rfl, hv, h.2.symm, h.1.symm⟩

/-- The quality invariant holds in every reachable session state. -/
theorem reachable_quality_inv {codec : MessageCodec} {channels0 : ChannelMap}
    {client : WebSocketClient} (h : Reachable codec channels0 client) :
    quality_inv channels0 client := by
  induction h with
  | opened id =>
    intro name hc
    simp [WebSocketClient.new] at hc
  | bind _ _ hinit _ =>
    obtain ⟨ch, v, _, _, hcl, _⟩ := handle_client_init_ok hinit
    subst hcl
    intro name _
    exact ⟨fun q hq => by simp [WebSocketClient.init] at hq,
      fun q hq => by simp [WebSocketClient.init] at hq⟩
  | info _ ih =>
    intro name hc
    exact ih name hc
  | @video channels server server1 client client1 _ hsnap hv ih =>
    obtain ⟨name1, ch, t, hc, hf, _, hcase⟩ := serve_video_ok hv
    rcases hcase with ⟨_, _, hcl⟩ | ⟨_, q, _, _, _, hq, _, _, _, _, hcl⟩
    · subst hcl; exact ih
    · subst hcl
      intro name hname
      have hn : name = name1 := by
        have : client.channel = some name := hname
        rw [hc] at this
        exact (Option.some.inj this).symm
      subst hn
      obtain ⟨ch0, hf0, hvf, _⟩ := hsnap name ch hf
      refine ⟨?_, (ih name hc).2⟩
      intro q1 hq1
      have hq1 : q = q1 := Option.some.inj hq1
      subst hq1
      obtain ⟨first, rest, hl, hqd⟩ := select_video_quality_ok hc hf hq
      cases hcur : client.curr_vq with
      | none =>
        refine ⟨ch0, hf0, ?_⟩
        rw [hcur] at hqd
        rw [← hvf, hl, hqd]
        exact List.mem_cons_self _ _
      | some q0 =>
        rw [hcur] at hqd
        obtain ⟨ch1, hf1, hmem⟩ := (ih name hc).1 q0 hcur
        exact ⟨ch1, hf1, by rw [hqd]; exact hmem⟩
  | @audio channels server server1 client client1 _ hsnap hv ih =>
    obtain ⟨name1, ch, t, hc, hf, _, hcase⟩ := serve_audio_ok hv
    rcases hcase with ⟨_, _, hcl⟩ | ⟨_, q, _, _, _, hq, _, _, _, _, hcl⟩
    · subst hcl; exact ih
    · subst hcl
      intro name hname
      have hn : name = name1 := by
        have : client.channel = some name := hname
        rw [hc] at this
        exact (Option.some.inj this).symm
      subst hn
      obtain ⟨ch0, hf0, _, haf⟩ := hsnap name ch hf
      refine ⟨(ih name hc).1, ?_⟩
      intro q1 hq1
      have hq1 : q = q1 := Option.some.inj hq1
      subst hq1
      obtain ⟨first, rest, hl, hqd⟩ := select_audio_quality_ok hc hf hq
      cases hcur : client.curr_aq with
      | none =>
        refine ⟨ch0, hf0, ?_⟩
        rw [hcur] at hqd
        rw [← haf, hl, hqd]
        exact List.mem_cons_self _ _
      | some q0 =>
        rw [hcur] at hqd
        obtain ⟨ch1, hf1, hmem⟩ := (ih name hc).2 q0 hcur
        exact ⟨ch1, hf1, by rw [hqd]; exact hmem⟩

end Lemmas

/-! ## Facts about the tokenizer -/

section TokenizerLemmas

theorem index_of_some {c : Char} {l : List Char} {i : Nat} (h : index_of c l = some i) :
    l[i]? = some c ∧ c ∉ l.take i := by
  induction l generalizing i with
  | nil => simp [index_of] at h
  | cons x xs ih =>
    unfold index_of at h
    by_cases hx : x = c
    · rw [if_pos hx] at h
      injection h with h
      subst h
      simp [hx]
    · rw [if_neg hx] at h
      cases hi : index_of c xs with
      | none => rw [hi] at h; simp at h
      | some j =>
        rw [hi] at h
        simp only [Option.map_some'] at h
        injection h with h
        subst h
        obtain ⟨h1, h2⟩ := ih hi
        refine ⟨by simpa using h1, ?_⟩
        simp only [List.take_succ_cons, List.mem_cons, not_or]
        exact ⟨fun hc => hx hc.symm, h2⟩

theorem index_of_none {c : Char} {l : List Char} (h : index_of c l = none) : c ∉ l := by
  induction l with
  | nil => simp
  | cons x xs ih =>
    unfold index_of at h
    by_cases hx : x = c
    · rw [if_pos hx] at h; cases h
    · rw [if_neg hx] at h
      cases hi : index_of c xs with
      | none =>
        simp only [List.mem_cons, not_or]
        exact ⟨fun hc => hx hc.symm, ih hi⟩
      | some j => rw [hi] at h; simp at h

theorem find_some {s : List Char} {c : Char} {pos p : Nat} (h : find s c pos = some p) :
    pos ≤ p ∧ p < s.length ∧ s[p]? = some c ∧ c ∉ (s.drop pos).take (p - pos) := by
  unfold find at h
  cases hi : index_of c (s.drop pos) with
  | none => rw [hi] at h; simp at h
  | some i =>
    rw [hi] at h
    simp only [Option.map_some'] at h
    injection h with h
    subst h
    obtain ⟨h1, h2⟩ := index_of_some hi
    rw [List.getElem?_drop] at h1
    have hlt : pos + i < s.length := by
      by_contra hge
      rw [List.getElem?_eq_none (by omega)] at h1
      cases h1
    refine ⟨by omega, by omega, by rw [Nat.add_comm]; exact h1, ?_⟩
    rw [Nat.add_sub_cancel]
    exact h2

theorem find_none {s : List Char} {c : Char} {pos : Nat} (h : find s c pos = none) :
    c ∉ s.drop pos := by
  unfold find at h
  cases hi : index_of c (s.drop pos) with
  | none => exact index_of_none hi
  | some i => rw [hi] at h; simp at h

theorem take_stretch (s : List Char) {pos p : Nat} (h : pos ≤ p) :
    s.take pos ++ (s.drop pos).take (p - pos) = s.take p := by
  have := List.take_add s pos (p - pos)
  rw [Nat.add_sub_cancel' h] at this
  exact this.symm

theorem take_one_more (s : List Char) {p : Nat} {c : Char} (h : s[p]? = some c) :
    s.take p ++ [c] = s.take (p + 1) := by
  rw [List.take_succ, h]
  rfl

theorem substr_ok (s : List Char) {pos : Nat} (n : Nat) (h : pos ≤ s.length) :
    substr s pos n = .ok ((s.drop pos).take n) := by
  unfold substr
  rw [if_neg (by omega)]

/-- The loop invariant of the tokenizer: from a state where `data`
concatenates to the first `pos` characters of the line and holds well-formed
tokens only, the loop does not run out of fuel, and when it ends normally
`data` concatenates to the whole line and holds well-formed tokens only. -/
theorem tokenize_loop_spec (config_line : List Char) :
    ∀ (fuel pos : Nat) (data : List (List Char)),
      pos ≤ config_line.length → config_line.length - pos < fuel →
      data.flatten = config_line.take pos →
      (∀ tok ∈ data, well_formed_token tok) →
      tokenize_loop fuel config_line pos data ≠ TokenizerResult.out_of_fuel ∧
      ∀ out, tokenize_loop fuel config_line pos data = TokenizerResult.tokens out →
        out.flatten = config_line ∧ ∀ tok ∈ out, well_formed_token tok := by
  intro fuel
  induction fuel with
  | zero => intro pos data _ hfuel; omega
  | succ fuel ih =>
    intro pos data hpos hfuel hcat hwf
    unfold tokenize_loop
    by_cases hlt : pos < config_line.length
    · rw [if_pos hlt]
      cases hl : find config_line '{' pos with
      | none =>
        simp only [substr_ok config_line _ hpos]
        refine ⟨by simp, ?_⟩
        intro out hout
        injection hout with hout
        subst hout
        have hfull : (config_line.drop pos).take (config_line.length - pos)
            = config_line.drop pos := by
          rw [List.take_of_length_le (by simp)]
        rw [hfull]
        constructor
        · rw [List.flatten_append, hcat]
          simp
        · intro tok htok
          rcases List.mem_append.1 htok with h | h
          · exact hwf tok h
          · rw [List.mem_singleton.1 h]
            refine ⟨?_, Or.inl (find_none hl)⟩
            intro hnil
            have := congrArg List.length hnil
            simp at this
            omega
      | some left_pos =>
        obtain ⟨hle, hllt, hlc, hlno⟩ := find_some hl
        simp only []
        -- the literal before the brace
        have hlit : ∃ data1 : List (List Char),
            (if left_pos - pos > 0 then
              (substr config_line pos (left_pos - pos)).map (fun literal => data ++ [literal])
             else (.ok data : Except StdException (List (List Char)))) = .ok data1 ∧
            data1.flatten = config_line.take left_pos ∧
            ∀ tok ∈ data1, well_formed_token tok := by
          by_cases hgap : left_pos - pos > 0
          · rw [if_pos hgap, substr_ok config_line _ hpos]
            refine ⟨_, rfl, ?_, ?_⟩
            · rw [List.flatten_append, hcat]
              simp only [List.flatten_cons, List.flatten_nil, List.append_nil]
              exact take_stretch config_line hle
            · intro tok htok
              rcases List.mem_append.1 htok with h | h
              · exact hwf tok h
              · rw [List.mem_singleton.1 h]
                refine ⟨?_, Or.inl hlno⟩
                intro hnil
                have := congrArg List.length hnil
                simp at this
                omega
          · rw [if_neg hgap]
            have : left_pos = pos := by omega
            subst this
            exact ⟨data, rfl, hcat, hwf⟩
        obtain ⟨data1, hd1, hcat1, hwf1⟩ := hlit
        rw [hd1]
        simp only []
        cases hr : find config_line '}' (left_pos + 1) with
        | none => exact ⟨by simp, by intro out hout; cases hout⟩
        | some right_pos =>
          obtain ⟨hrle, hrlt, hrc, _⟩ := find_some hr
          simp only []
          by_cases hone : right_pos - left_pos = 1
          · rw [if_pos hone]
            exact ⟨by simp, by intro out hout; cases hout⟩
          · rw [if_neg hone]
            rw [substr_ok config_line _ (show left_pos + 1 ≤ config_line.length by omega)]
            simp only []
            cases hs : stoi ((config_line.drop (left_pos + 1)).take
                (right_pos - left_pos - 1)) with
            | error e => exact ⟨by simp, by intro out hout; cases hout⟩
            | ok column =>
              simp only []
              by_cases hcol : column ≤ 0
              · rw [if_pos hcol]
                exact ⟨by simp, by intro out hout; cases hout⟩
              · rw [if_neg hcol]
                apply ih (right_pos + 1) _ (by omega) (by omega)
                · rw [List.flatten_append, hcat1]
                  simp only [List.flatten_cons, List.flatten_nil, List.append_nil]
                  have h1 := take_one_more config_line hlc
                  have h2 := take_stretch config_line
                    (show left_pos + 1 ≤ right_pos by omega)
                  have h3 := take_one_more config_line hrc
                  have hsub : right_pos - left_pos - 1 = right_pos - (left_pos + 1) := by
                    omega
                  rw [hsub, ← h3, ← h2, ← h1]
                  simp
                · intro tok htok
                  rcases List.mem_append.1 htok with h | h
                  · exact hwf1 tok h
                  · rw [List.mem_singleton.1 h]
                    refine ⟨by simp, Or.inr ⟨_, column, rfl, hs, by omega⟩⟩
    · rw [if_neg hlt]
      refine ⟨by simp, ?_⟩
      intro out hout
      injection hout with hout
      subst hout
      have : pos = config_line.length := by omega
      subst this
      exact ⟨by rw [hcat, List.take_length], hwf⟩

end TokenizerLemmas

/-! ## Facts about the fixtures -/

section FixtureLemmas

theorem le_bytes_length (k n : Nat) : (le_bytes k n).length = k := by
  induction k generalizing n with
  | zero => rfl
  | succ k ih => simp [le_bytes, ih]

theorem fixture_c1_small (t d off len : Nat) (q : VideoFormat) (i v : Bytes)
    (hi : fixture_c1.vinit q = .ok i) (hv : fixture_c1.vdata q t = .ok v) :
    (fixture_codec.make_video_msg q.to_string t d off len).length + i.length + v.length
      < 2 ^ 31 := by
  simp only [fixture_c1] at hi hv
  split at hi
  · rename_i hq
    subst hq
    injection hi with hi
    split at hv
    · injection hv with hv
      subst hi hv
      simp only [fixture_codec, List.length_append, le_bytes_length]
      decide
    · cases hv
  · cases hi

theorem fixture_find_c1 {ch : Channel} (h : fixture_channels.find "c1" = some ch) :
    ch = fixture_c1 := by
  have h0 : fixture_channels.find "c1" = some fixture_c1 := rfl
  rw [h0] at h
  exact (Option.some.inj h).symm

theorem fixture_ticks_mem {channels : ChannelMap}
    (h : channels ∈ [fixture_channels, fixture_channels, fixture_channels]) :
    channels = fixture_channels := by
  simpa using h

theorem fixture_snapshot : fixture_channels.snapshot_of fixture_channels :=
  fun _ ch h => ⟨ch, h, rfl, rfl⟩

/-- The fixture session `fixture_served` is reached by an open, a bind to
`c1` and one video delivery. -/
theorem fixture_served_reachable : Reachable fixture_codec fixture_channels fixture_served :=
  Reachable.video
    (Reachable.bind (Reachable.opened 7) fixture_snapshot
      (show handle_client_init fixture_codec fixture_channels ⟨[]⟩ (WebSocketClient.new 7)
          ⟨"c1"⟩ = .ok (_, (WebSocketClient.new 7).init "c1" 32320 0) from rfl))
    fixture_snapshot
    (show serve_video_to_client fixture_codec fixture_channels ⟨[]⟩
        ((WebSocketClient.new 7).init "c1" 32320 0)
        = .ok (WebSocketServer.queue_frame ⟨[]⟩ 7 ⟨true, OpCode.Binary,
            fixture_codec.make_video_msg "1080p" 32320 180000 0 5 ++ [1, 2, 10, 11, 12]⟩,
          fixture_served) from rfl)

theorem fixture_c1_small_audio (t d off len : Nat) (q : AudioFormat) (i v : Bytes)
    (hi : fixture_c1.ainit q = .ok i) (hv : fixture_c1.adata q t = .ok v) :
    (fixture_codec.make_audio_msg q.to_string t d off len).length + i.length + v.length
      < 2 ^ 31 := by
  simp only [fixture_c1] at hi hv
  split at hi
  · rename_i hq
    subst hq
    injection hi with hi
    split at hv
    · injection hv with hv
      subst hi hv
      simp only [fixture_codec, List.length_append, le_bytes_length]
      decide
    · cases hv
  · cases hi

end FixtureLemmas

/-! ## The delivery policy: theorems -/

/-- C4: for a bound client with video cursor `t`, when `vready(t)` is false
`serve_video_to_client` returns with the server queue and the session
exactly as they were.  Whenever a call changes the server queue, `vready(t)`
was true and what was queued is one frame, the frame for the timestamp `t`
itself: it is assembled from the header written for `t` and from the segment
the store returned for `t`, and below `2 ^ 31` bytes it is that header
followed by its payload; the cursor moves from `t` to `t + vduration()`.  The
same for `serve_audio_to_client` with `aready`, `next_ats` and the audio
accessors. -/
theorem not_ready_enqueues_nothing (codec : MessageCodec) (channels : ChannelMap)
    (server : WebSocketServer) (client : WebSocketClient) (name : String) (ch : Channel)
    (hc : client.channel = some name) (hf : channels.find name = some ch) :
    (∀ t, client.next_vts = some t →
      (ch.vready t = false →
        serve_video_to_client codec channels server client = .ok (server, client)) ∧
      (∀ server1 client1,
        serve_video_to_client codec channels server client = .ok (server1, client1) →
        server1 ≠ server →
        ch.vready t = true ∧
        ∃ q init_data video_data payload,
          select_video_quality channels client = .ok q ∧
          ch.vinit q = .ok init_data ∧ ch.vdata q t = .ok video_data ∧
          assemble_frame (codec.make_video_msg q.to_string t ch.vduration 0)
            (video_init_required client q) init_data video_data = .ok payload ∧
          server1.queue
            = server.queue ++ [(client.connection_id, ⟨true, OpCode.Binary, payload⟩)] ∧
          client1.next_vts = some ((t + ch.vduration) % U64) ∧
          ((∀ len, (codec.make_video_msg q.to_string t ch.vduration 0 len).length
              + init_data.length + video_data.length < 2 ^ 31) →
            ∃ body, (⟨true, OpCode.Binary, payload⟩ : WSFrame)
              = video_frame_of codec q t ch.vduration body))) ∧
    (∀ t, client.next_ats = some t →
      (ch.aready t = false →
        serve_audio_to_client codec channels server client = .ok (server, client)) ∧
      (∀ server1 client1,
        serve_audio_to_client codec channels server client = .ok (server1, client1) →
        server1 ≠ server →
        ch.aready t = true ∧
        ∃ q init_data audio_data payload,
          select_audio_quality channels client = .ok q ∧
          ch.ainit q = .ok init_data ∧ ch.adata q t = .ok audio_data ∧
          assemble_frame (codec.make_audio_msg q.to_string t ch.aduration 0)
            (audio_init_required client q) init_data audio_data = .ok payload ∧
          server1.queue
            = server.queue ++ [(client.connection_id, ⟨true, OpCode.Binary, payload⟩)] ∧
          client1.next_ats = some ((t + ch.aduration) % U64) ∧
          ((∀ len, (codec.make_audio_msg q.to_string t ch.aduration 0 len).length
              + init_data.length + audio_data.length < 2 ^ 31) →
            ∃ body, (⟨true, OpCode.Binary, payload⟩ : WSFrame)
              = audio_frame_of codec q t ch.aduration body))) := by
  constructor
  · intro t ht
    refine ⟨fun hr => serve_video_not_ready codec server client hc hf ht hr, ?_⟩
    intro server1 client1 h hne
    obtain ⟨name1, ch1, t1, hc1, hf1, ht1, hcase⟩ := serve_video_ok h
    have hn : name1 = name := by rw [hc] at hc1; exact (Option.some.inj hc1).symm
    subst hn
    have hch : ch1 = ch := by rw [hf] at hf1; exact (Option.some.inj hf1).symm
    subst hch
    have htt : t1 = t := by rw [ht] at ht1; exact (Option.some.inj ht1).symm
    subst htt
    rcases hcase with ⟨_, hs, _⟩ | ⟨hr, q, vd, idata, payload, hq, hd, hi, ha, hs, hcl⟩
    · exact absurd hs hne
    · refine ⟨hr, q, idata, vd, payload, hq, hi, hd, ha, ?_, ?_, ?_⟩
      · rw [hs]; rfl
      · rw [hcl]
      · intro hsmall
        obtain ⟨body, hp, hlen⟩ := assemble_frame_split hsmall ha
        refine ⟨body, ?_⟩
        simp only [video_frame_of]
        rw [hp, hlen]
  · intro t ht
    refine ⟨fun hr => serve_audio_not_ready codec server client hc hf ht hr, ?_⟩
    intro server1 client1 h hne
    obtain ⟨name1, ch1, t1, hc1, hf1, ht1, hcase⟩ := serve_audio_ok h
    have hn : name1 = name := by rw [hc] at hc1; exact (Option.some.inj hc1).symm
    subst hn
    have hch : ch1 = ch := by rw [hf] at hf1; exact (Option.some.inj hf1).symm
    subst hch
    have htt : t1 = t := by rw [ht] at ht1; exact (Option.some.inj ht1).symm
    subst htt
    rcases hcase with ⟨_, hs, _⟩ | ⟨hr, q, vd, idata, payload, hq, hd, hi, ha, hs, hcl⟩
    · exact absurd hs hne
    · refine ⟨hr, q, idata, vd, payload, hq, hi, hd, ha, ?_, ?_, ?_⟩
      · rw [hs]; rfl
      · rw [hcl]
      · intro hsmall
        obtain ⟨body, hp, hlen⟩ := assemble_frame_split hsmall ha
        refine ⟨body, ?_⟩
        simp only [audio_frame_of]
        rw [hp, hlen]

/-- C4, on the fixtures.  The starved session: the store has neither the
video segment at 720000 nor the audio segment at 1, and both delivery
functions return the server and the session unchanged.  The session with the
cursor at 360000: the call queues a frame, 360000 was ready, and the frame is
the video frame for 360000. -/
theorem not_ready_enqueues_nothing_witness :
    (fixture_c1.vready 720000 = false ∧ fixture_c1.aready 1 = false ∧
      serve_video_to_client fixture_codec fixture_channels ⟨[]⟩ fixture_starved
        = .ok (⟨[]⟩, fixture_starved) ∧
      serve_audio_to_client fixture_codec fixture_channels ⟨[]⟩ fixture_starved
        = .ok (⟨[]⟩, fixture_starved)) ∧
    (fixture_c1.vready 360000 = true ∧
      ∃ q init_data video_data payload,
        select_video_quality fixture_channels fixture_bound = .ok q ∧
        fixture_c1.vinit q = .ok init_data ∧ fixture_c1.vdata q 360000 = .ok video_data ∧
        assemble_frame (fixture_codec.make_video_msg q.to_string 360000 fixture_c1.vduration 0)
          (video_init_required fixture_bound q) init_data video_data = .ok payload ∧
        (WebSocketServer.queue_frame ⟨[]⟩ 7 ⟨true, OpCode.Binary,
            fixture_codec.make_video_msg "1080p" 360000 180000 0 5 ++ [1, 2, 10, 11, 12]⟩).queue
          = [] ++ [(fixture_bound.connection_id, ⟨true, OpCode.Binary, payload⟩)] ∧
        (some 540000 : Option Nat) = some ((360000 + fixture_c1.vduration) % U64) ∧
        ((∀ len, (fixture_codec.make_video_msg q.to_string 360000 fixture_c1.vduration 0
              len).length + init_data.length + video_data.length < 2 ^ 31) →
          ∃ body, (⟨true, OpCode.Binary, payload⟩ : WSFrame)
            = video_frame_of fixture_codec q 360000 fixture_c1.vduration body)) :=
  have h := not_ready_enqueues_nothing fixture_codec fixture_channels ⟨[]⟩ fixture_starved
    "c1" fixture_c1 (by decide) rfl
  have g := not_ready_enqueues_nothing fixture_codec fixture_channels ⟨[]⟩ fixture_bound
    "c1" fixture_c1 (by decide) rfl
  ⟨⟨by decide, by decide, (h.1 720000 (by decide)).1 (by decide),
      (h.2 1 (by decide)).1 (by decide)⟩,
    (g.1 360000 (by decide)).2
      (WebSocketServer.queue_frame ⟨[]⟩ 7 ⟨true, OpCode.Binary,
        fixture_codec.make_video_msg "1080p" 360000 180000 0 5 ++ [1, 2, 10, 11, 12]⟩)
      { fixture_bound with next_vts := some 540000, curr_vq := some q1080 }
      rfl (by decide)⟩

/-- C2: for a bound client whose next video timestamp is ready, the frame a
completed call of `serve_video_to_client` queues is the metadata header, then
the initialization blob of the selected quality, then the segment, whenever
`curr_vq` is not the selected quality (it is unset, as after bind, or it is
another quality); it is the header and the segment alone when `curr_vq`
already is the selected quality.  The call leaves `curr_vq` at the selected
quality.  Frames are taken below `2 ^ 31` bytes, the range of the `int`
offset `video_segment_begin`. -/
theorem init_blob_iff_quality_changes (codec : MessageCodec) (channels : ChannelMap)
    (server server1 : WebSocketServer) (client client1 : WebSocketClient)
    (name : String) (ch : Channel) (t : Nat)
    (hc : client.channel = some name) (hf : channels.find name = some ch)
    (ht : client.next_vts = some t) (hr : ch.vready t = true)
    (hsmall : ∀ q len i v, ch.vinit q = .ok i → ch.vdata q t = .ok v →
      (codec.make_video_msg q.to_string t ch.vduration 0 len).length + i.length + v.length
        < 2 ^ 31)
    (h : serve_video_to_client codec channels server client = .ok (server1, client1)) :
    ∃ q init_data video_data frame,
      select_video_quality channels client = .ok q ∧
      ch.vinit q = .ok init_data ∧ ch.vdata q t = .ok video_data ∧
      server1.queue = server.queue ++ [(client.connection_id, frame)] ∧
      client1.curr_vq = some q ∧
      (client.curr_vq ≠ some q →
        frame.payload =
          codec.make_video_msg q.to_string t ch.vduration 0
            (video_data.length + init_data.length) ++ init_data ++ video_data) ∧
      (client.curr_vq = some q →
        frame.payload =
          codec.make_video_msg q.to_string t ch.vduration 0 video_data.length
            ++ video_data) := by
  obtain ⟨name1, ch1, t1, hc1, hf1, ht1, hcase⟩ := serve_video_ok h
  have hn : name1 = name := by rw [hc] at hc1; exact (Option.some.inj hc1).symm
  subst hn
  have hch : ch1 = ch := by rw [hf] at hf1; exact (Option.some.inj hf1).symm
  subst hch
  have htt : t1 = t := by rw [ht] at ht1; exact (Option.some.inj ht1).symm
  subst htt
  rcases hcase with ⟨hr0, _, _⟩ | ⟨_, q, vd, idata, payload, hq, hd, hi, ha, hs, hcl⟩
  · rw [hr] at hr0; cases hr0
  · rw [assemble_frame_small _ _ _ _ (fun len => hsmall q len idata vd hi hd)] at ha
    injection ha with ha
    refine ⟨q, idata, vd, ⟨true, OpCode.Binary, payload⟩, hq, hi, hd, ?_, ?_, ?_, ?_⟩
    · rw [hs]; rfl
    · rw [hcl]
    · intro hne
      rw [(video_init_required_iff client q).2 hne] at ha
      exact ha.symm
    · intro heq
      have hb : video_init_required client q = false := by
        cases hv : video_init_required client q with
        | false => rfl
        | true => exact absurd heq ((video_init_required_iff client q).1 hv)
      rw [hb] at ha
      exact ha.symm

/-- C2, on the fixtures: the first frame after bind is header, initialization
blob `[1, 2]`, segment `[10, 11, 12]`; the session is left at `1080p`. -/
theorem init_blob_iff_quality_changes_witness :
    ∃ q init_data video_data frame,
      select_video_quality fixture_channels fixture_bound = .ok q ∧
      fixture_c1.vinit q = .ok init_data ∧ fixture_c1.vdata q 360000 = .ok video_data ∧
      (WebSocketServer.queue_frame ⟨[]⟩ 7 ⟨true, OpCode.Binary,
          fixture_codec.make_video_msg "1080p" 360000 180000 0 5 ++ [1, 2, 10, 11, 12]⟩).queue
        = [] ++ [(fixture_bound.connection_id, frame)] ∧
      (some q1080 : Option VideoFormat) = some q ∧
      (fixture_bound.curr_vq ≠ some q →
        frame.payload =
          fixture_codec.make_video_msg q.to_string 360000 fixture_c1.vduration 0
            (video_data.length + init_data.length) ++ init_data ++ video_data) ∧
      (fixture_bound.curr_vq = some q →
        frame.payload =
          fixture_codec.make_video_msg q.to_string 360000 fixture_c1.vduration 0
            video_data.length ++ video_data) :=
  init_blob_iff_quality_changes fixture_codec fixture_channels ⟨[]⟩
    (WebSocketServer.queue_frame ⟨[]⟩ 7 ⟨true, OpCode.Binary,
      fixture_codec.make_video_msg "1080p" 360000 180000 0 5 ++ [1, 2, 10, 11, 12]⟩)
    fixture_bound
    { fixture_bound with next_vts := some 540000, curr_vq := some q1080 }
    "c1" fixture_c1 360000 (by decide) rfl (by decide) (by decide)
    (fun q len i v hi hv => fixture_c1_small 360000 180000 0 len q i v hi hv)
    rfl

/-- C3: every frame that `serve_video_to_client` or `serve_audio_to_client`
queues is as long as its metadata header plus the value of `payload_len` the
header was written with, whether or not the initialization blob is included:
`payload_len` is the frame length minus the header length.  For a frame below
`2 ^ 31` bytes the frame is that header followed by exactly `payload_len`
bytes. -/
theorem payload_len_is_length_after_header (codec : MessageCodec) (channels : ChannelMap)
    (server : WebSocketServer) (client : WebSocketClient) :
    (∀ server1 client1,
      serve_video_to_client codec channels server client = .ok (server1, client1) →
      server1 ≠ server →
      ∃ name ch t q init_data video_data frame,
        client.channel = some name ∧ channels.find name = some ch ∧
        client.next_vts = some t ∧ select_video_quality channels client = .ok q ∧
        ch.vinit q = .ok init_data ∧ ch.vdata q t = .ok video_data ∧
        server1.queue = server.queue ++ [(client.connection_id, frame)] ∧
        frame.payload.length =
          (codec.make_video_msg q.to_string t ch.vduration 0
            (payload_len_of (video_init_required client q) init_data video_data)).length
          + payload_len_of (video_init_required client q) init_data video_data ∧
        ((∀ len, (codec.make_video_msg q.to_string t ch.vduration 0 len).length
            + init_data.length + video_data.length < 2 ^ 31) →
          ∃ body, frame.payload =
            codec.make_video_msg q.to_string t ch.vduration 0
              (payload_len_of (video_init_required client q) init_data video_data) ++ body ∧
            body.length = payload_len_of (video_init_required client q) init_data video_data)) ∧
    (∀ server1 client1,
      serve_audio_to_client codec channels server client = .ok (server1, client1) →
      server1 ≠ server →
      ∃ name ch t q init_data audio_data frame,
        client.channel = some name ∧ channels.find name = some ch ∧
        client.next_ats = some t ∧ select_audio_quality channels client = .ok q ∧
        ch.ainit q = .ok init_data ∧ ch.adata q t = .ok audio_data ∧
        server1.queue = server.queue ++ [(client.connection_id, frame)] ∧
        frame.payload.length =
          (codec.make_audio_msg q.to_string t ch.aduration 0
            (payload_len_of (audio_init_required client q) init_data audio_data)).length
          + payload_len_of (audio_init_required client q) init_data audio_data ∧
        ((∀ len, (codec.make_audio_msg q.to_string t ch.aduration 0 len).length
            + init_data.length + audio_data.length < 2 ^ 31) →
          ∃ body, frame.payload =
            codec.make_audio_msg q.to_string t ch.aduration 0
              (payload_len_of (audio_init_required client q) init_data audio_data) ++ body ∧
            body.length = payload_len_of (audio_init_required client q) init_data audio_data)) := by
  constructor
  · intro server1 client1 h hne
    obtain ⟨name, ch, t, hc, hf, ht, hcase⟩ := serve_video_ok h
    rcases hcase with ⟨_, hs, _⟩ | ⟨_, q, vd, idata, payload, hq, hd, hi, ha, hs, _⟩
    · exact absurd hs hne
    · refine ⟨name, ch, t, q, idata, vd, ⟨true, OpCode.Binary, payload⟩, hc, hf, ht, hq,
        hi, hd, ?_, assemble_frame_length ha, fun hsmall => assemble_frame_split hsmall ha⟩
      rw [hs]; rfl
  · intro server1 client1 h hne
    obtain ⟨name, ch, t, hc, hf, ht, hcase⟩ := serve_audio_ok h
    rcases hcase with ⟨_, hs, _⟩ | ⟨_, q, vd, idata, payload, hq, hd, hi, ha, hs, _⟩
    · exact absurd hs hne
    · refine ⟨name, ch, t, q, idata, vd, ⟨true, OpCode.Binary, payload⟩, hc, hf, ht, hq,
        hi, hd, ?_, assemble_frame_length ha, fun hsmall => assemble_frame_split hsmall ha⟩
      rw [hs]; rfl

/-- C3, on the fixtures: a call of `serve_audio_to_client` that queues a frame
for the session bound to `c1`. -/
theorem payload_len_is_length_after_header_witness :
    ∃ name ch t q init_data audio_data frame,
      fixture_bound.channel = some name ∧ fixture_channels.find name = some ch ∧
      fixture_bound.next_ats = some t ∧
      select_audio_quality fixture_channels fixture_bound = .ok q ∧
      ch.ainit q = .ok init_data ∧ ch.adata q t = .ok audio_data ∧
      (WebSocketServer.queue_frame ⟨[]⟩ 7 ⟨true, OpCode.Binary,
          fixture_codec.make_audio_msg "128k" 0 432000 0 3 ++ [3, 20, 21]⟩).queue
        = [] ++ [(fixture_bound.connection_id, frame)] ∧
      frame.payload.length =
        (fixture_codec.make_audio_msg q.to_string t ch.aduration 0
          (payload_len_of (audio_init_required fixture_bound q) init_data audio_data)).length
        + payload_len_of (audio_init_required fixture_bound q) init_data audio_data ∧
      ((∀ len, (fixture_codec.make_audio_msg q.to_string t ch.aduration 0 len).length
          + init_data.length + audio_data.length < 2 ^ 31) →
        ∃ body, frame.payload =
          fixture_codec.make_audio_msg q.to_string t ch.aduration 0
            (payload_len_of (audio_init_required fixture_bound q) init_data audio_data) ++ body ∧
          body.length = payload_len_of (audio_init_required fixture_bound q) init_data audio_data) :=
  (payload_len_is_length_after_header fixture_codec fixture_channels ⟨[]⟩ fixture_bound).2
    (WebSocketServer.queue_frame ⟨[]⟩ 7 ⟨true, OpCode.Binary,
      fixture_codec.make_audio_msg "128k" 0 432000 0 3 ++ [3, 20, 21]⟩)
    { fixture_bound with next_ats := some 432000, curr_aq := some a128 }
    rfl (by decide)

/-- C1: for a bound client and any run of scheduling ticks, each tick with its
own state of the stores, the video frames that `serve_video_to_client` queues
are, in order, frames for the timestamps `t0`, `t0 + Dv`, `t0 + 2 * Dv`, ...:
frame number `k` of the run carries the header written for `t0 + k * Dv`
(computed as a `uint64_t`, so reduced modulo `2 ^ 64`, and equal to
`t0 + k * Dv` while that is below `2 ^ 64`).  `t0` is the cursor `next_vts`
at the start, `Dv` the channel's `vduration()`; frames are taken below
`2 ^ 31` bytes. -/
theorem video_timestamps_consecutive (codec : MessageCodec) (ticks : List ChannelMap)
    (server : WebSocketServer) (client : WebSocketClient) (name : String) (t0 Dv : Nat)
    (hc : client.channel = some name) (ht : client.next_vts = some t0) (hlt : t0 < U64)
    (hDv : ∀ channels ∈ ticks, ∀ ch, channels.find name = some ch → ch.vduration = Dv)
    (hsmall : ∀ channels ∈ ticks, ∀ ch, channels.find name = some ch → ∀ q t len i v,
      ch.vinit q = .ok i → ch.vdata q t = .ok v →
      (codec.make_video_msg q.to_string t Dv 0 len).length + i.length + v.length
        < 2 ^ 31)
    (k : Nat) (hk : k < (video_trace codec ticks server client).length) :
    ∃ q body,
      (video_trace codec ticks server client)[k]?
        = some (video_frame_of codec q ((t0 + k * Dv) % U64) Dv body) ∧
      (t0 + k * Dv < U64 →
        (video_trace codec ticks server client)[k]?
          = some (video_frame_of codec q (t0 + k * Dv) Dv body)) := by
  have hget := List.getElem?_eq_getElem hk
  obtain ⟨q, body, hfr⟩ :=
    video_trace_get codec name Dv ticks server client t0 hc ht hlt hDv hsmall k _ hget
  refine ⟨q, body, by rw [hget, hfr], fun hno => ?_⟩
  rw [hget, hfr, Nat.mod_eq_of_lt hno]

/-- C1, on the fixtures: three ticks from the cursor 360000 queue two video
frames (the store has nothing at 720000); the second one is for 540000. -/
theorem video_timestamps_consecutive_witness :
    (video_trace fixture_codec [fixture_channels, fixture_channels, fixture_channels]
      ⟨[]⟩ fixture_bound).length = 2 ∧
    ∃ q body,
      (video_trace fixture_codec [fixture_channels, fixture_channels, fixture_channels]
        ⟨[]⟩ fixture_bound)[1]?
        = some (video_frame_of fixture_codec q ((360000 + 1 * 180000) % U64) 180000 body) ∧
      (360000 + 1 * 180000 < U64 →
        (video_trace fixture_codec [fixture_channels, fixture_channels, fixture_channels]
          ⟨[]⟩ fixture_bound)[1]?
          = some (video_frame_of fixture_codec q (360000 + 1 * 180000) 180000 body)) :=
  ⟨by decide,
   video_timestamps_consecutive fixture_codec
    [fixture_channels, fixture_channels, fixture_channels] ⟨[]⟩ fixture_bound "c1"
    360000 180000 (by decide) (by decide) (by decide)
    (fun channels hm ch hf => by
      rw [fixture_ticks_mem hm] at hf
      rw [fixture_find_c1 hf]
      rfl)
    (fun channels hm ch hf q t len i v hi hv => by
      rw [fixture_ticks_mem hm] at hf
      rw [fixture_find_c1 hf] at hi hv
      exact fixture_c1_small t 180000 0 len q i v hi hv)
    1 (by decide)⟩

/-- C8: in every session state reachable through bind, rebind and delivery,
for a session bound to a channel of the registry: when the channel's video
quality list is not empty, `select_video_quality` returns `curr_vq` when it
is set and the first entry of the list otherwise, and the quality returned
belongs to the list; `curr_vq`, when set, belongs to the list.  The same for
`select_audio_quality`, `curr_aq` and the audio quality list. -/
theorem selected_quality_in_channel_list (codec : MessageCodec)
    (channels0 channels : ChannelMap) (client : WebSocketClient) (name : String)
    (ch : Channel)
    (hreach : Reachable codec channels0 client) (hsnap : channels.snapshot_of channels0)
    (hc : client.channel = some name) (hf : channels.find name = some ch) :
    ((∀ q, client.curr_vq = some q → q ∈ ch.vformats) ∧
     (ch.vformats ≠ [] →
        ∃ first rest, ch.vformats = first :: rest ∧
          select_video_quality channels client = .ok (client.curr_vq.getD first) ∧
          client.curr_vq.getD first ∈ ch.vformats)) ∧
    ((∀ q, client.curr_aq = some q → q ∈ ch.aformats) ∧
     (ch.aformats ≠ [] →
        ∃ first rest, ch.aformats = first :: rest ∧
          select_audio_quality channels client = .ok (client.curr_aq.getD first) ∧
          client.curr_aq.getD first ∈ ch.aformats)) := by
  have hinv := reachable_quality_inv hreach name hc
  obtain ⟨ch0, hf0, hvf, haf⟩ := hsnap name ch hf
  have hvmem : ∀ q, client.curr_vq = some q → q ∈ ch.vformats := by
    intro q hq
    obtain ⟨ch1, hf1, hmem⟩ := hinv.1 q hq
    rw [hf0] at hf1
    rw [hvf, Option.some.inj hf1]
    exact hmem
  have hamem : ∀ q, client.curr_aq = some q → q ∈ ch.aformats := by
    intro q hq
    obtain ⟨ch1, hf1, hmem⟩ := hinv.2 q hq
    rw [hf0] at hf1
    rw [haf, Option.some.inj hf1]
    exact hmem
  refine ⟨⟨hvmem, fun hv => ?_⟩, ⟨hamem, fun ha => ?_⟩⟩
  · cases hl : ch.vformats with
    | nil => exact absurd hl hv
    | cons first rest =>
      refine ⟨first, rest, rfl, select_video_quality_cons hc hf hl, ?_⟩
      cases hcur : client.curr_vq with
      | none => exact List.mem_cons_self _ _
      | some q => rw [← hl]; exact hvmem q hcur
  · cases hl : ch.aformats with
    | nil => exact absurd hl ha
    | cons first rest =>
      refine ⟨first, rest, rfl, select_audio_quality_cons hc hf hl, ?_⟩
      cases hcur : client.curr_aq with
      | none => exact List.mem_cons_self _ _
      | some q => rw [← hl]; exact hamem q hcur

/-- C8, on the fixtures: after a bind to `c1` and one video delivery the
selector returns the current video quality `1080p`, a member of the video
quality list of `c1`. -/
theorem selected_quality_in_channel_list_witness :
    fixture_served.curr_vq = some q1080 ∧
    ∃ first rest, fixture_c1.vformats = first :: rest ∧
      select_video_quality fixture_channels fixture_served
        = .ok (fixture_served.curr_vq.getD first) ∧
      fixture_served.curr_vq.getD first ∈ fixture_c1.vformats :=
  ⟨by decide,
   (selected_quality_in_channel_list fixture_codec fixture_channels fixture_channels
    fixture_served "c1" fixture_c1 fixture_served_reachable fixture_snapshot
    (by decide) rfl).1.2 (by decide)⟩

/-- C9 (as stated it fails): the session bound to `c2`, both cursors at 0.
The store holds the audio segment at 0 with its initialization blob, and
`aready(0)` holds.  `vready(0)` holds too, through the quality `720p`, but
the quality selected for the session is the first one, `1080p`, whose
segment at 0 is not in the store: `vdata` fails, the exception leaves
`serve_client` before the audio step, no frame is queued and `next_ats` stays
at 0. -/
theorem audio_blocked_by_missing_video_segment :
    fixture_bound_c2.channel = some "c2" ∧
    fixture_bound_c2.next_vts = some 0 ∧ fixture_bound_c2.next_ats = some 0 ∧
    fixture_c2.aready 0 = true ∧
    select_audio_quality fixture_channels fixture_bound_c2 = .ok a128 ∧
    fixture_c2.adata a128 0 = .ok [20, 21] ∧ fixture_c2.ainit a128 = .ok [3] ∧
    fixture_c2.vready 0 = true ∧
    select_video_quality fixture_channels fixture_bound_c2 = .ok q1080 ∧
    fixture_c2.vdata q1080 0 = .error Fault.store_failure ∧
    serve_client fixture_codec fixture_channels ⟨[]⟩ fixture_bound_c2
      = ⟨⟨[]⟩, fixture_bound_c2, some Fault.store_failure⟩ ∧
    (serve_client fixture_codec fixture_channels ⟨[]⟩ fixture_bound_c2).server.queue = [] ∧
    (serve_client fixture_codec fixture_channels ⟨[]⟩ fixture_bound_c2).client.next_ats
      = some 0 :=
  ⟨by decide, by decide, by decide, by decide, rfl, rfl, rfl, by decide, rfl, rfl,
    by decide, by decide, by decide⟩

/-- C9 (amended): one invocation of `serve_client` on a bound client runs the
video step, then the audio step.  (1) When `vready(next_vts)` holds and the
store has the segment and the initialization blob of the selected video
quality, the video frame for `next_vts` is queued and `next_vts` advances,
whatever the state of the audio store.  (2) When `vready(next_vts)` is false,
and (3) when the video frame is queued as in (1), the audio frame for
`next_ats` is queued and `next_ats` advances whenever `aready(next_ats)`
holds and the store has the segment and the initialization blob of the
selected audio quality.  Frames are taken below `2 ^ 31` bytes. -/
theorem serve_client_video_then_audio (codec : MessageCodec) (channels : ChannelMap)
    (server : WebSocketServer) (client : WebSocketClient) (name : String) (ch : Channel)
    (tv ta : Nat)
    (hc : client.channel = some name) (hf : channels.find name = some ch)
    (htv : client.next_vts = some tv) (hta : client.next_ats = some ta)
    (hvsmall : ∀ q len i v, ch.vinit q = .ok i → ch.vdata q tv = .ok v →
      (codec.make_video_msg q.to_string tv ch.vduration 0 len).length + i.length + v.length
        < 2 ^ 31)
    (hasmall : ∀ q len i v, ch.ainit q = .ok i → ch.adata q ta = .ok v →
      (codec.make_audio_msg q.to_string ta ch.aduration 0 len).length + i.length + v.length
        < 2 ^ 31) :
    (ch.vready tv = true →
      ∀ qv vd vi, select_video_quality channels client = .ok qv →
        ch.vdata qv tv = .ok vd → ch.vinit qv = .ok vi →
        ∃ vbody rest,
          (serve_client codec channels server client).server.queue
            = server.queue ++
                (client.connection_id, video_frame_of codec qv tv ch.vduration vbody) :: rest ∧
          (serve_client codec channels server client).client.next_vts
            = some ((tv + ch.vduration) % U64)) ∧
    (ch.vready tv = false → ch.aready ta = true →
      ∀ qa ad ai, select_audio_quality channels client = .ok qa →
        ch.adata qa ta = .ok ad → ch.ainit qa = .ok ai →
        ∃ abody,
          (serve_client codec channels server client).server.queue
            = server.queue ++
                [(client.connection_id, audio_frame_of codec qa ta ch.aduration abody)] ∧
          (serve_client codec channels server client).client.next_ats
            = some ((ta + ch.aduration) % U64) ∧
          (serve_client codec channels server client).client.next_vts = some tv ∧
          (serve_client codec channels server client).fault = none) ∧
    (ch.vready tv = true → ch.aready ta = true →
      ∀ qv vd vi qa ad ai, select_video_quality channels client = .ok qv →
        ch.vdata qv tv = .ok vd → ch.vinit qv = .ok vi →
        select_audio_quality channels client = .ok qa →
        ch.adata qa ta = .ok ad → ch.ainit qa = .ok ai →
        ∃ vbody abody,
          (serve_client codec channels server client).server.queue
            = server.queue ++
                [(client.connection_id, video_frame_of codec qv tv ch.vduration vbody),
                 (client.connection_id, audio_frame_of codec qa ta ch.aduration abody)] ∧
          (serve_client codec channels server client).client.next_vts
            = some ((tv + ch.vduration) % U64) ∧
          (serve_client codec channels server client).client.next_ats
            = some ((ta + ch.aduration) % U64) ∧
          (serve_client codec channels server client).fault = none) := by
  refine ⟨?_, ?_, ?_⟩
  · intro hr qv vd vi hq hd hi
    obtain ⟨vbody, hvp⟩ := assemble_video_frame_of codec qv tv ch.vduration
      (video_init_required client qv) vi vd (fun len => hvsmall qv len vi vd hi hd)
    have hv := serve_video_ready codec server client hc hf htv hr hq hd hi hvp
    rw [serve_client_bound codec channels server hc htv hta, hv]
    simp only
    split
    · exact ⟨vbody, [], rfl, rfl⟩
    · rename_i server2 client2 ha
      obtain ⟨_, hvts, _⟩ := serve_audio_keeps_video ha
      obtain ⟨_, _, _, _, _, _, hcase⟩ := serve_audio_ok ha
      rcases hcase with ⟨_, hs, _⟩ | ⟨_, _, _, _, ap, _, _, _, _, hs, _⟩
      · exact ⟨vbody, [], by rw [hs]; rfl, by rw [hvts]⟩
      · refine ⟨vbody, [(client.connection_id, ⟨true, OpCode.Binary, ap⟩)], ?_, by rw [hvts]⟩
        rw [hs]
        simp only [WebSocketServer.queue_frame, List.append_assoc, List.singleton_append]
        rfl
  · intro hr har qa ad ai hq hd hi
    obtain ⟨abody, hap⟩ := assemble_audio_frame_of codec qa ta ch.aduration
      (audio_init_required client qa) ai ad (fun len => hasmall qa len ai ad hi hd)
    have hv := serve_video_not_ready codec server client hc hf htv hr
    have ha := serve_audio_ready codec server client hc hf hta har hq hd hi hap
    rw [serve_client_bound codec channels server hc htv hta, hv]
    simp only
    rw [ha]
    exact ⟨abody, rfl, rfl, htv, rfl⟩
  · intro hr har qv vd vi qa ad ai hq hd hi hqa hda hia
    obtain ⟨vbody, hvp⟩ := assemble_video_frame_of codec qv tv ch.vduration
      (video_init_required client qv) vi vd (fun len => hvsmall qv len vi vd hi hd)
    obtain ⟨abody, hap⟩ := assemble_audio_frame_of codec qa ta ch.aduration
      (audio_init_required client qa) ai ad (fun len => hasmall qa len ai ad hia hda)
    have hv := serve_video_ready codec server client hc hf htv hr hq hd hi hvp
    have ha := serve_audio_ready codec
      (server.queue_frame client.connection_id
        ⟨true, OpCode.Binary, (video_frame_of codec qv tv ch.vduration vbody).payload⟩)
      { client with next_vts := some ((tv + ch.vduration) % U64), curr_vq := some qv }
      (show _ = some name from hc) hf (show _ = some ta from hta) har
      (show select_audio_quality channels _ = .ok qa from hqa) hda hia hap
    rw [serve_client_bound codec channels server hc htv hta, hv]
    simp only
    rw [ha]
    refine ⟨vbody, abody, ?_, rfl, rfl, rfl⟩
    simp only [WebSocketServer.queue_frame, List.append_assoc, List.singleton_append]
    rfl

/-- C9 (amended), on the fixtures: the session bound to `c1`, video ready at
360000 and audio ready at 0: both frames are queued and both cursors
advance. -/
theorem serve_client_video_then_audio_witness :
    ∃ vbody abody,
      (serve_client fixture_codec fixture_channels ⟨[]⟩ fixture_bound).server.queue
        = [] ++ [(fixture_bound.connection_id,
                   video_frame_of fixture_codec q1080 360000 fixture_c1.vduration vbody),
                 (fixture_bound.connection_id,
                   audio_frame_of fixture_codec a128 0 fixture_c1.aduration abody)] ∧
      (serve_client fixture_codec fixture_channels ⟨[]⟩ fixture_bound).client.next_vts
        = some ((360000 + fixture_c1.vduration) % U64) ∧
      (serve_client fixture_codec fixture_channels ⟨[]⟩ fixture_bound).client.next_ats
        = some ((0 + fixture_c1.aduration) % U64) ∧
      (serve_client fixture_codec fixture_channels ⟨[]⟩ fixture_bound).fault = none :=
  (serve_client_video_then_audio fixture_codec fixture_channels ⟨[]⟩ fixture_bound "c1"
    fixture_c1 360000 0 (by decide) rfl (by decide) (by decide)
    (fun q len i v hi hv => fixture_c1_small 360000 180000 0 len q i v hi hv)
    (fun q len i v hi hv => fixture_c1_small_audio 0 432000 0 len q i v hi hv)).2.2
    (by decide) (by decide) q1080 [10, 11, 12] [1, 2] a128 [20, 21] [3]
    rfl rfl rfl rfl rfl rfl

/-! ## The control handler: theorems -/

/-- C7: when a ClientInit message names a channel that is not in the
registry, the message callback returns normally, queues no frame at all (so
no ServerInit), removes the session of the sending connection from the table
and leaves the entry of every other connection as it was. -/
theorem unknown_channel_drops_only_the_sender (codec : MessageCodec)
    (channels : ChannelMap) (server : WebSocketServer) (clients : ClientMap)
    (connection_id : Nat) (payload data : Bytes) (client : WebSocketClient)
    (name : String)
    (hat : clients.at connection_id = .ok client)
    (hun : codec.unpack_client_msg payload = .ok (ClientMessage.Init, data))
    (hp : codec.parse_client_init_msg data = .ok ⟨name⟩)
    (hch : channels.find name = none) :
    (message_callback codec channels server clients connection_id payload).fault = none ∧
    (message_callback codec channels server clients connection_id payload).server = server ∧
    (message_callback codec channels server clients connection_id payload).clients
      = clients.erase connection_id ∧
    ClientMap.at (message_callback codec channels server clients connection_id payload).clients
      connection_id = .error Fault.out_of_range ∧
    ∀ j, j ≠ connection_id →
      ClientMap.at (message_callback codec channels server clients connection_id payload).clients j
        = clients.at j := by
  have htry : message_try codec channels server client payload
      = .error Fault.bad_client_message := by
    unfold message_try handle_client_init
    simp [hun, hp, hch, bind, Except.bind, throw, throwThe, MonadExceptOf.throw]
  have hcb : message_callback codec channels server clients connection_id payload
      = ⟨server, clients.erase connection_id, none⟩ := by
    unfold message_callback
    simp only [hat, htry]
  rw [hcb]
  refine ⟨rfl, rfl, rfl, ?_, ?_⟩
  · unfold ClientMap.at
    rw [lookup_erase_self]
  · intro j hj
    unfold ClientMap.at
    rw [lookup_erase_ne clients hj]

/-- C7, on the fixtures: connection 7 asks for a channel that is not in the
registry while connection 8 is bound to `c1`; the session of 7 is removed,
the one of 8 stays and nothing is queued. -/
theorem unknown_channel_drops_only_the_sender_witness :
    message_callback fixture_codec fixture_channels ⟨[]⟩
      [(7, WebSocketClient.new 7), (8, fixture_bound)] 7 [0, 3]
      = ⟨⟨[]⟩, [(8, fixture_bound)], none⟩ ∧
    ClientMap.at (message_callback fixture_codec fixture_channels ⟨[]⟩
      [(7, WebSocketClient.new 7), (8, fixture_bound)] 7 [0, 3]).clients 8
      = ClientMap.at [(7, WebSocketClient.new 7), (8, fixture_bound)] 8 :=
  ⟨by decide,
   (unknown_channel_drops_only_the_sender fixture_codec fixture_channels ⟨[]⟩
    [(7, WebSocketClient.new 7), (8, fixture_bound)] 7 [0, 3] [3]
    (WebSocketClient.new 7) "nowhere" rfl rfl rfl rfl).2.2.2.2 8 (by decide)⟩

/-- C5 (the code does otherwise): a ClientInit for the known channel `c1`
from connection 7, whose session is in the table.  The callback returns
normally and queues the ServerInit, but the session stored under 7 is what it
was before the message, unbound and without cursors: `init` ran on the
callback's own copy.  The next firing of the timer therefore skips the
session and queues nothing. -/
theorem message_callback_init_is_lost :
    message_callback fixture_codec fixture_channels ⟨[]⟩ [(7, WebSocketClient.new 7)] 7 [0, 1]
      = ⟨⟨[(7, ⟨true, OpCode.Binary,
              fixture_codec.make_server_init_msg "c1" "avc1" "opus" 90000 32320⟩)]⟩,
          [(7, WebSocketClient.new 7)], none⟩ ∧
    (WebSocketClient.new 7).channel = none ∧
    (WebSocketClient.new 7).next_vts = none ∧
    timer_callback fixture_codec fixture_channels 1 ⟨[]⟩ [(7, WebSocketClient.new 7)]
      = ⟨⟨[]⟩, [(7, WebSocketClient.new 7)], none⟩ := by
  decide

/-- C6 (the code does otherwise): `handle_client_init` for the channel `c1`,
whose store answers `init_vts() = 360000` with stride 180000.  The cursor is
set to 32320, that is 360000 modulo `2 ^ 16`, and the ServerInit carries
32320: the local `init_vts` is a `uint16_t`.  32320 is not a multiple of the
stride. -/
theorem handle_client_init_truncates (codec : MessageCodec) (server : WebSocketServer)
    (client : WebSocketClient) :
    fixture_c1.init_vts = .ok 360000 ∧
    handle_client_init codec fixture_channels server client ⟨"c1"⟩ =
      .ok (server.queue_frame client.connection_id
            ⟨true, OpCode.Binary,
              codec.make_server_init_msg "c1" "avc1" "opus" 90000 32320⟩,
           { client with channel := some "c1", next_vts := some 32320,
                         next_ats := some 0, curr_vq := none, curr_aq := none }) ∧
    360000 % U16 = 32320 ∧ 32320 % fixture_c1.vduration ≠ 0 :=
  ⟨rfl, rfl, by decide, by decide⟩

/-! ## The log reporter: theorem -/

/-- C10: on every configuration line the tokenizer of the log reporter ends
(the model never runs out of fuel), and whenever it ends normally, that is
without `EXIT_FAILURE` and without an exception, the tokens stored in `data`
concatenate, in order, to the line itself, every token is non-empty, and
every token is either a literal without `{` or a placeholder `{column}`
whose column text `stoi` reads as a positive integer. -/
theorem tokenizer_tokens_rebuild_line (config_line : List Char) :
    tokenize config_line ≠ TokenizerResult.out_of_fuel ∧
    ∀ data, tokenize config_line = TokenizerResult.tokens data →
      data.flatten = config_line ∧
      ∀ tok ∈ data, tok ≠ [] ∧
        (('{' ∉ tok) ∨
         ∃ column_no column, tok = ['{'] ++ column_no ++ ['}'] ∧
           stoi column_no = .ok column ∧ 0 < column) := by
  have h := tokenize_loop_spec config_line (config_line.length + 1) 0 []
    (Nat.zero_le _) (by omega) (by simp) (by intro tok htok; cases htok)
  exact ⟨h.1, fun data hdata => ⟨(h.2 data hdata).1, fun tok htok => (h.2 data hdata).2 tok htok⟩⟩

/-- C10, on the line `cpu,host={1} value={3}`: four tokens, two literals and
two placeholders, that concatenate to the line. -/
theorem tokenizer_tokens_rebuild_line_witness :
    tokenize "cpu,host={1} value={3}".toList
      = TokenizerResult.tokens
          ["cpu,host=".toList, "{1}".toList, " value=".toList, "{3}".toList] ∧
    ["cpu,host=".toList, "{1}".toList, " value=".toList, "{3}".toList].flatten
      = "cpu,host={1} value={3}".toList ∧
    ∀ tok ∈ ["cpu,host=".toList, "{1}".toList, " value=".toList, "{3}".toList],
      tok ≠ [] ∧
        (('{' ∉ tok) ∨
         ∃ column_no column, tok = ['{'] ++ column_no ++ ['}'] ∧
           stoi column_no = .ok column ∧ 0 < column) :=
  ⟨by decide,
   ((tokenizer_tokens_rebuild_line "cpu,host={1} value={3}".toList).2 _ (by decide)).1,
   ((tokenizer_tokens_rebuild_line "cpu,host={1} value={3}".toList).2 _ (by decide)).2⟩

end Puffer
